import Mathlib

/-!
Verification development for the beady terminal UI (Go).

The Go sources are shallowly embedded:

* Go strings are lists of runes (`GoStr`); each rune carries its codepoint
  and its terminal display width, so `runewidth.StringWidth` becomes a sum.
  UTF-8 byte-lexicographic comparison (`strings.Compare`) coincides with
  codepoint-lexicographic comparison, embedded as `goCompare`.
* Go `int` is embedded as `Int`; timestamps (`time.Time`) as `Int` with
  `After`/`Before`/`Equal` becoming `>`/`<`/`=`.
* Go maps used as string-keyed dictionaries/sets are embedded as
  association lists with overwrite-on-insert semantics; the code never
  iterates over a map, so iteration order does not matter.
* `sort.SliceStable` is embedded as a stable binary-insertion sort
  (`goSort`), which is exactly the algorithm Go applies to slices shorter
  than its block size and agrees with every stable sort whenever the
  comparator is consistent.
* ANSI styling (lipgloss) only wraps a string in escape sequences; it is
  embedded as the identity on the text content, which is faithful for the
  properties at stake (line counts, substring search for section labels).
-/

/-- A single rune together with its terminal display width
(as computed by `runewidth.RuneWidth`: 0 combining, 1 narrow, 2 wide). -/
structure Rune where
  code : Nat
  width : Nat
deriving DecidableEq, Repr

/-- A Go string, embedded as its rune sequence. -/
abbrev GoStr := List Rune

/-- Builds the embedding of an ASCII string literal (every ASCII printable
rune has display width 1). -/
def asciiStr (s : String) : GoStr := s.data.map (fun c => ⟨c.toNat, 1⟩)

/-- `ui.StringWidth` / `runewidth.StringWidth`: the visible display width of
a string is the sum of its runes' widths. -/
def stringWidth (s : GoStr) : Nat := (s.map Rune.width).sum

/-- The three-dot ellipsis marker appended by `ui.Truncate` (display width 3). -/
def ellipsisStr : GoStr := asciiStr (r"...")

/-- The scanning loop of `runewidth.Truncate`: keep taking runes while the
accumulated width stays within the budget `w` (the loop breaks at the first
rune whose width would exceed it). -/
def takeWidth : GoStr → Int → GoStr
  | [], _ => []
  | r :: rs, w => if (r.width : Int) > w then [] else r :: takeWidth rs (w - (r.width : Int))

/-- `runewidth.Truncate s w tail`: returns `s` unchanged when it already fits,
otherwise the longest rune-boundary prefix fitting in `w` minus the tail's
width, with the tail appended. -/
def runewidthTrunc (s : GoStr) (w : Int) (tail : GoStr) : GoStr :=
  if (stringWidth s : Int) ≤ w then s
  else takeWidth s (w - (stringWidth tail : Int)) ++ tail

/-- `ui.Truncate`: empty for `maxLen ≤ 0`; unchanged when the string fits;
otherwise `runewidth.Truncate` with the `"..."` tail. -/
def truncate (s : GoStr) (maxLen : Int) : GoStr :=
  if maxLen ≤ 0 then []
  else if (stringWidth s : Int) ≤ maxLen then s
  else runewidthTrunc s maxLen ellipsisStr

theorem stringWidth_append (a b : GoStr) :
    stringWidth (a ++ b) = stringWidth a + stringWidth b := by
  simp [stringWidth]

theorem takeWidth_isPfx (s : GoStr) (w : Int) :
    ∃ rest, takeWidth s w ++ rest = s := by
  induction s generalizing w with
  | nil => exact ⟨[], rfl⟩
  | cons r rs ih =>
    by_cases h : (r.width : Int) > w
    · exact ⟨r :: rs, by simp [takeWidth, h]⟩
    · obtain ⟨rest, hrest⟩ := ih (w - (r.width : Int))
      exact ⟨rest, by simp [takeWidth, h, hrest]⟩

theorem takeWidth_width_le (s : GoStr) (w : Int) (hw : 0 ≤ w) :
    (stringWidth (takeWidth s w) : Int) ≤ w := by
  induction s generalizing w with
  | nil => simpa [takeWidth, stringWidth] using hw
  | cons r rs ih =>
    by_cases h : (r.width : Int) > w
    · simpa [takeWidth, h, stringWidth] using hw
    · have h' : (r.width : Int) ≤ w := le_of_not_lt h
      have := ih (w - (r.width : Int)) (by omega)
      simp only [takeWidth, h, if_false]
      have hcons : stringWidth (r :: takeWidth rs (w - (r.width : Int)))
          = r.width + stringWidth (takeWidth rs (w - (r.width : Int))) := by
        simp [stringWidth]
      omega

theorem takeWidth_of_neg (s : GoStr) (w : Int) (hw : w < 0) :
    takeWidth s w = [] := by
  cases s with
  | nil => rfl
  | cons r rs =>
    have h : (r.width : Int) > w := by
      have : (0 : Int) ≤ (r.width : Int) := Int.natCast_nonneg _
      omega
    simp [takeWidth, h]

theorem takeWidth_longest (s : GoStr) (w : Int) (q rest : GoStr)
    (hsplit : q ++ rest = s) (hq : (stringWidth q : Int) ≤ w) :
    q.length ≤ (takeWidth s w).length := by
  induction s generalizing q w with
  | nil =>
    have : q = [] := by
      cases q with
      | nil => rfl
      | cons a as => simp at hsplit
    simp [this]
  | cons r rs ih =>
    cases q with
    | nil => simp
    | cons a as =>
      have ha : a = r := by
        have := congrArg (List.head?) hsplit
        simpa using this
      have has : as ++ rest = rs := by
        have := congrArg (List.tail) hsplit
        simpa using this
      subst ha
      have hwa : stringWidth (a :: as) = a.width + stringWidth as := by
        simp [stringWidth]
      have hle : (a.width : Int) ≤ w := by
        have : (0 : Int) ≤ (stringWidth as : Int) := by positivity
        omega
      have hnot : ¬ (a.width : Int) > w := not_lt.mpr hle
      simp only [takeWidth, hnot, if_false, List.length_cons]
      have := ih (w - (a.width : Int)) as has (by omega)
      omega

/-- C5 counterexample: for `s = "abcd"` (display width 4) and `maxWidth = 2`
the code returns the bare ellipsis of display width 3, exceeding `maxWidth`,
so the claim's final clause ("the display width of the result never exceeds
maxWidth") is false as stated. -/
theorem claim5_ce :
    0 < (2 : Int) ∧ (2 : Int) < (stringWidth (asciiStr (r"abcd")) : Int) ∧
      truncate (asciiStr (r"abcd")) 2 = ellipsisStr ∧
      ¬ (stringWidth (truncate (asciiStr (r"abcd")) 2) : Int) ≤ 2 := by
  decide

/-- C5 (amended): `truncate` returns the empty string when `maxWidth ≤ 0` and
`s` unchanged when its display width fits.  Otherwise it returns the longest
codepoint-boundary prefix whose display width plus the 3-column ellipsis does
not exceed `maxWidth`, followed by the ellipsis; the display width of the
result is bounded by `max maxWidth 3` (not by `maxWidth`: when
`0 < maxWidth < 3` no prefix fits and the bare width-3 ellipsis is returned). -/
theorem claim5_truncate :
    ∀ (s : GoStr) (maxLen : Int),
      (maxLen ≤ 0 → truncate s maxLen = []) ∧
      (0 < maxLen → (stringWidth s : Int) ≤ maxLen → truncate s maxLen = s) ∧
      (0 < maxLen → maxLen < (stringWidth s : Int) →
        ∃ p rest, p ++ rest = s ∧
          truncate s maxLen = p ++ ellipsisStr ∧
          (stringWidth p : Int) + 3 ≤ max maxLen 3 ∧
          (∀ q r', q ++ r' = s → (stringWidth q : Int) + 3 ≤ maxLen →
            q.length ≤ p.length) ∧
          (stringWidth (truncate s maxLen) : Int) ≤ max maxLen 3) := by
  intro s maxLen
  refine ⟨fun h => by simp [truncate, h], fun h1 h2 => by
    simp [truncate, not_le.mpr h1, h2], fun h1 h2 => ?_⟩
  have hnle : ¬ maxLen ≤ 0 := not_le.mpr h1
  have hnfit : ¬ (stringWidth s : Int) ≤ maxLen := not_le.mpr h2
  have hell : (stringWidth ellipsisStr : Int) = 3 := by decide
  have heq : truncate s maxLen = takeWidth s (maxLen - 3) ++ ellipsisStr := by
    simp [truncate, hnle, hnfit, runewidthTrunc, hell]
  obtain ⟨rest, hrest⟩ := takeWidth_isPfx s (maxLen - 3)
  refine ⟨takeWidth s (maxLen - 3), rest, hrest, heq, ?_, ?_, ?_⟩
  · by_cases hb : 0 ≤ maxLen - 3
    · have h2 := takeWidth_width_le s (maxLen - 3) hb
      omega
    · rw [takeWidth_of_neg s (maxLen - 3) (by omega)]
      simp only [stringWidth, List.map_nil, List.sum_nil, Nat.cast_zero]
      omega
  · intro q r' hq hqw
    exact takeWidth_longest s (maxLen - 3) q r' hq (by omega)
  · rw [heq, stringWidth_append]
    have hellN : stringWidth ellipsisStr = 3 := by decide
    rw [hellN]
    by_cases hb : 0 ≤ maxLen - 3
    · have := takeWidth_width_le s (maxLen - 3) hb
      omega
    · rw [takeWidth_of_neg s (maxLen - 3) (by omega)]
      simp only [stringWidth, List.map_nil, List.sum_nil]
      omega

/-- C5 witness: the amended theorem applied at `s = "hello!"` and
`maxWidth = 5` (its truncation branch is exercised: width 6 > 5). -/
theorem claim5_witness :
    ∃ p rest, p ++ rest = asciiStr (r"hello!") ∧
      truncate (asciiStr (r"hello!")) 5 = p ++ ellipsisStr ∧
      (stringWidth p : Int) + 3 ≤ max 5 3 ∧
      (∀ q r', q ++ r' = asciiStr (r"hello!") → (stringWidth q : Int) + 3 ≤ 5 →
        q.length ≤ p.length) ∧
      (stringWidth (truncate (asciiStr (r"hello!")) 5) : Int) ≤ max 5 3 :=
  (claim5_truncate (asciiStr (r"hello!")) 5).2.2 (by decide) (by decide)

/-- `ui.Align`: text alignment within a column. -/
inductive Align where
  | left
  | right
deriving DecidableEq, Repr

/-- `ui.SizeMode`: how a column determines its width. -/
inductive SizeMode where
  | sizeFixed
  | sizeFit
  | sizeFlex
deriving DecidableEq, Repr

/-- `ui.Column`: a table column spec plus its resolved width. -/
structure Column where
  header : GoStr
  size : SizeMode
  align : Align
  fixed : Int := 0
  min : Int := 0
  max : Int := 0
  width : Int := 0
deriving DecidableEq, Repr

/-- `ui.Table`: a list of columns and the inter-column gap. -/
structure Table where
  columns : List Column
  gap : Int
deriving DecidableEq, Repr

/-- `ui.NewTable`: default gap of 1. -/
def newTable (cols : List Column) : Table := ⟨cols, 1⟩

/-- The `SizeFit` arm of `Resolve` pass 1: max of data width and header
display width, clamped into `[min, max]` (each bound only when positive). -/
def fitWidth (c : Column) (dataW : Int) : Int :=
  let w0 := dataW
  let w1 := if (stringWidth c.header : Int) > w0 then (stringWidth c.header : Int) else w0
  let w2 := if c.min > 0 ∧ w1 < c.min then c.min else w1
  if c.max > 0 ∧ w2 > c.max then c.max else w2

/-- `Resolve` pass 1: resolve Fixed and Fit columns, defer Flex.  The Go loop
indexes `dataWidths` in step with the columns (missing entries read as 0),
embedded here by walking both lists together. -/
def pass1 : List Column → List Int → List Column
  | [], _ => []
  | c :: cs, dws =>
    (match c.size with
     | SizeMode.sizeFixed => { c with width := c.fixed }
     | SizeMode.sizeFit => { c with width := fitWidth c (dws.headD 0) }
     | SizeMode.sizeFlex => c) :: pass1 cs dws.tail

/-- Number of Flex columns, as counted during `Resolve` pass 1. -/
def flexCountI (cols : List Column) : Int :=
  ((cols.filter (fun c => decide (c.size = SizeMode.sizeFlex))).length : Int)

/-- `usedWidth` accumulated during pass 1: widths of the non-Flex columns. -/
def usedWidth (cols : List Column) : Int :=
  (cols.map (fun c => if c.size = SizeMode.sizeFlex then 0 else c.width)).sum

/-- Sum of all resolved column widths. -/
def sumWidths (cols : List Column) : Int := (cols.map Column.width).sum

/-- `Resolve` pass 2: distribute `remaining` evenly over the Flex columns;
the first `remaining % flexCount` of them get one extra column; each result
is clamped into `[min, max]` (each bound only when positive). -/
def distFlex : List Column → Int → Int → List Column
  | [], _, _ => []
  | c :: cs, perFlex, extra =>
    if c.size = SizeMode.sizeFlex then
      let w0 := if extra > 0 then perFlex + 1 else perFlex
      let w1 := if c.min > 0 ∧ w0 < c.min then c.min else w0
      let w2 := if c.max > 0 ∧ w1 > c.max then c.max else w1
      { c with width := w2 } :: distFlex cs perFlex (if extra > 0 then extra - 1 else extra)
    else c :: distFlex cs perFlex extra

/-- `Table.Resolve`: computes every column's width for the given terminal
width and per-column data widths.  Division only happens with both operands
positive, where Lean's `Int` division agrees with Go's. -/
def Table.resolve (t : Table) (totalWidth : Int) (dataWidths : List Int) : Table :=
  if t.columns.length = 0 then t
  else
    let cols1 := pass1 t.columns dataWidths
    let totalGaps := ((t.columns.length : Int) - 1) * t.gap
    let remaining := totalWidth - usedWidth cols1 - totalGaps
    let fc := flexCountI t.columns
    if fc > 0 ∧ remaining > 0 then
      { t with columns := distFlex cols1 (remaining / fc) (remaining % fc) }
    else if fc > 0 then
      { t with
        columns := cols1.map (fun c =>
          if c.size = SizeMode.sizeFlex then { c with width := c.min } else c) }
    else
      { t with columns := cols1 }

/-- Whether every Flex column's distributed share passes its own `[min, max]`
clamps unchanged (the mirror image of the clamping in `distFlex`). -/
def flexUnclamped : List Column → Int → Int → Bool
  | [], _, _ => true
  | c :: cs, perFlex, extra =>
    if c.size = SizeMode.sizeFlex then
      (decide (¬ (c.min > 0 ∧ (if extra > 0 then perFlex + 1 else perFlex) < c.min)) &&
       decide (¬ (c.max > 0 ∧ (if extra > 0 then perFlex + 1 else perFlex) > c.max))) &&
        flexUnclamped cs perFlex (if extra > 0 then extra - 1 else extra)
    else flexUnclamped cs perFlex extra

/-- The per-column minimum width of a spec (`Fixed` value, else `Min`),
used to state the claim's lower bound on `totalWidth`. -/
def colMinWidth (c : Column) : Int :=
  match c.size with
  | SizeMode.sizeFixed => c.fixed
  | SizeMode.sizeFit => c.min
  | SizeMode.sizeFlex => c.min

/-- Sum of all columns' minimum widths. -/
def minWidthSum (cols : List Column) : Int := (cols.map colMinWidth).sum

theorem flexCountI_nonneg (cols : List Column) : 0 ≤ flexCountI cols :=
  Int.natCast_nonneg _

theorem pass1_flexCountI (cols : List Column) (dws : List Int) :
    flexCountI (pass1 cols dws) = flexCountI cols := by
  induction cols generalizing dws with
  | nil => rfl
  | cons c cs ih =>
    simp only [pass1, flexCountI, List.filter]
    rcases hs : c.size with h1 | h2 | h3 <;>
      simp_all [flexCountI, List.filter_cons, hs]

theorem sumWidths_cons (c : Column) (cs : List Column) :
    sumWidths (c :: cs) = c.width + sumWidths cs := by
  simp [sumWidths]

theorem distFlex_sum (cols : List Column) (perFlex extra : Int) (hex : 0 ≤ extra)
    (hun : flexUnclamped cols perFlex extra = true) :
    sumWidths (distFlex cols perFlex extra)
      = usedWidth cols + perFlex * flexCountI cols + min extra (flexCountI cols) := by
  induction cols generalizing extra with
  | nil =>
    have h0 : flexCountI ([] : List Column) = 0 := rfl
    simp only [distFlex, sumWidths, usedWidth, h0, List.map_nil, List.sum_nil]
    omega
  | cons c cs ih =>
    have hfcc : 0 ≤ flexCountI cs := flexCountI_nonneg cs
    by_cases hs : c.size = SizeMode.sizeFlex
    · have hfc1 : flexCountI (c :: cs) = flexCountI cs + 1 := by
        simp [flexCountI, List.filter_cons, hs]
      have hu1 : usedWidth (c :: cs) = usedWidth cs := by
        simp [usedWidth, hs]
      simp only [distFlex, hs, if_true, flexUnclamped] at hun ⊢
      rw [Bool.and_eq_true, Bool.and_eq_true, decide_eq_true_eq, decide_eq_true_eq] at hun
      obtain ⟨⟨humin, humax⟩, hurest⟩ := hun
      rw [sumWidths_cons]
      have hdist : perFlex * (flexCountI cs + 1) = perFlex * flexCountI cs + perFlex := by
        ring
      by_cases he : extra > 0
      · rw [if_pos he] at hurest
        have hrec := ih (extra - 1) (by omega) hurest
        simp only [he, if_true] at humin humax ⊢
        have hw1 : (if c.min > 0 ∧ perFlex + 1 < c.min then c.min else perFlex + 1)
            = perFlex + 1 := by simp [humin]
        have hw2 : (if c.max > 0 ∧ perFlex + 1 > c.max then c.max else perFlex + 1)
            = perFlex + 1 := by simp [humax]
        rw [hw1, hw2, hrec, hfc1, hu1, hdist]
        have hmin : min (extra - 1) (flexCountI cs) + 1 = min extra (flexCountI cs + 1) := by
          omega
        linarith [hmin]
      · rw [if_neg he] at hurest
        have hrec := ih extra hex hurest
        simp only [he, if_false] at humin humax ⊢
        have hw1 : (if c.min > 0 ∧ perFlex < c.min then c.min else perFlex) = perFlex := by
          simp [humin]
        have hw2 : (if c.max > 0 ∧ perFlex > c.max then c.max else perFlex) = perFlex := by
          simp [humax]
        rw [hw1, hw2, hrec, hfc1, hu1, hdist]
        have hext : extra = 0 := by omega
        subst hext
        have hmin : min (0 : Int) (flexCountI cs) = 0 ∧
            min (0 : Int) (flexCountI cs + 1) = 0 := by omega
        linarith [hmin.1, hmin.2]
    · have hfc1 : flexCountI (c :: cs) = flexCountI cs := by
        simp [flexCountI, List.filter_cons, hs]
      have hu1 : usedWidth (c :: cs) = c.width + usedWidth cs := by
        simp [usedWidth, hs]
      simp only [distFlex, hs, if_false, flexUnclamped] at hun ⊢
      have hrec := ih extra hex hun
      rw [sumWidths_cons, hrec, hfc1, hu1]
      ring

/-- C1 (amended): whenever at least one Flex column exists, the remaining
space is positive, and every Flex column's distributed share passes its own
`[min, max]` clamps unchanged, `Resolve` makes the widths plus the
inter-column gaps sum to exactly `totalWidth`.  (The claim's lower bound on
`totalWidth` is kept as a hypothesis; the correction replaces "at least one
unclamped Flex column" by "every Flex column unclamped".) -/
theorem claim1_resolve (t : Table) (totalWidth : Int) (dataWidths : List Int)
    (hmin : minWidthSum t.columns + ((t.columns.length : Int) - 1) * t.gap ≤ totalWidth)
    (hfc : flexCountI t.columns > 0)
    (hrem : totalWidth - usedWidth (pass1 t.columns dataWidths)
        - ((t.columns.length : Int) - 1) * t.gap > 0)
    (hun : flexUnclamped (pass1 t.columns dataWidths)
        ((totalWidth - usedWidth (pass1 t.columns dataWidths)
          - ((t.columns.length : Int) - 1) * t.gap) / flexCountI t.columns)
        ((totalWidth - usedWidth (pass1 t.columns dataWidths)
          - ((t.columns.length : Int) - 1) * t.gap) % flexCountI t.columns) = true) :
    sumWidths (t.resolve totalWidth dataWidths).columns
      + ((t.columns.length : Int) - 1) * t.gap = totalWidth := by
  have hne : ¬ t.columns.length = 0 := by
    intro h
    rw [List.length_eq_zero] at h
    rw [h] at hfc
    exact absurd hfc (by decide)
  have hfc1 := pass1_flexCountI t.columns dataWidths
  set cols1 := pass1 t.columns dataWidths with hc1
  set remaining := totalWidth - usedWidth cols1
      - ((t.columns.length : Int) - 1) * t.gap with hr
  set fc := flexCountI t.columns with hf
  have hres : (t.resolve totalWidth dataWidths).columns
      = distFlex cols1 (remaining / fc) (remaining % fc) := by
    simp only [Table.resolve, hne, if_false, ← hc1, ← hr, ← hf]
    rw [if_pos ⟨hfc, hrem⟩]
  have hmod0 : 0 ≤ remaining % fc := Int.emod_nonneg remaining (by omega)
  have hmodlt : remaining % fc < fc := Int.emod_lt_of_pos remaining hfc
  have hsum := distFlex_sum cols1 (remaining / fc) (remaining % fc) hmod0 hun
  rw [hres, hsum, hfc1]
  have hminmod : min (remaining % fc) fc = remaining % fc := by omega
  rw [hminmod]
  have hdm := Int.ediv_add_emod remaining fc
  have hcomm : (remaining / fc) * fc = fc * (remaining / fc) := mul_comm _ _
  have : usedWidth cols1 + remaining + ((t.columns.length : Int) - 1) * t.gap
      = totalWidth := by omega
  linarith [hdm, hcomm]

/-- First column of the C1 counterexample table: a Flex column whose minimum
width (10) exceeds its distributed share. -/
def ceColA : Column :=
  { header := asciiStr (r"A"), size := SizeMode.sizeFlex, align := Align.left,
    min := 10, max := 100 }

/-- Second column of the C1 counterexample table: a Flex column whose
distributed share lies strictly inside its own bounds. -/
def ceColB : Column :=
  { header := asciiStr (r"B"), size := SizeMode.sizeFlex, align := Align.left,
    min := 1, max := 100 }

/-- The C1 counterexample table (default gap 1). -/
def ceTable : Table := newTable [ceColA, ceColB]

/-- C1 counterexample: with `totalWidth = 12 ≥ sum of minimum widths plus
gaps = 12` and the second Flex column's share 5 strictly inside its bounds
(1, 100) — so at least one Flex column is unclamped — the first Flex column
is clamped up to its minimum 10 and the resolved widths plus gaps total 16,
not 12.  The claim as stated is therefore false. -/
theorem claim1_ce :
    minWidthSum ceTable.columns + ((ceTable.columns.length : Int) - 1) * ceTable.gap ≤ 12 ∧
    (12 - usedWidth (pass1 ceTable.columns [])
        - ((ceTable.columns.length : Int) - 1) * ceTable.gap) / flexCountI ceTable.columns
      = 5 ∧
    ceColB.min < 5 ∧ (5 : Int) < ceColB.max ∧
    sumWidths ((ceTable.resolve 12 []).columns)
        + ((ceTable.columns.length : Int) - 1) * ceTable.gap = 16 ∧
    (16 : Int) ≠ 12 := by
  decide

/-- Fixed-width column for the C1 witness table. -/
def wColFixed : Column :=
  { header := asciiStr (r"ID"), size := SizeMode.sizeFixed, align := Align.left,
    fixed := 5 }

/-- Unbounded Flex column for the C1 witness table. -/
def wColFlex : Column :=
  { header := asciiStr (r"TITLE"), size := SizeMode.sizeFlex, align := Align.left,
    min := 3, max := 0 }

/-- The C1 witness table. -/
def wTable : Table := newTable [wColFixed, wColFlex]

/-- C1 witness: the amended theorem applied to a concrete table (one Fixed
and one unbounded Flex column) at `totalWidth = 20`. -/
theorem claim1_witness :
    sumWidths ((wTable.resolve 20 []).columns)
      + ((wTable.columns.length : Int) - 1) * wTable.gap = 20 :=
  claim1_resolve wTable 20 [] (by decide) (by decide) (by decide) (by decide)

/-- Decimal rendering of a natural number (`fmt.Sprintf` with a `%d` verb);
ASCII digits have display width 1. -/
def natToStr (n : Nat) : GoStr := (Nat.toDigits 10 n).map (fun c => ⟨c.toNat, 1⟩)

/-- Decimal rendering of a Go `int`. -/
def intToStr (i : Int) : GoStr :=
  if i < 0 then asciiStr (r"-") ++ natToStr i.natAbs else natToStr i.natAbs

/-- `models.Comment`. -/
structure Comment where
  id : Int := 0
  issueID : GoStr := []
  author : GoStr := []
  text : GoStr := []
  createdAt : Int := 0
deriving DecidableEq, Repr

/-- `models.IssueWithDepType`.  The Go struct embeds the full `Issue`; the
views only ever read the embedded issue's id, title, status and priority, so
the embedding carries exactly those fields plus the dependency annotations
(carrying the whole recursive issue would add nothing the code reads). -/
structure DepIssue where
  id : GoStr := []
  title : GoStr := []
  status : GoStr := []
  priority : Int := 0
  dependencyType : GoStr := []
  dependsOnID : GoStr := []
  depType : GoStr := []
deriving DecidableEq, Repr

/-- `IssueWithDepType.ParentID`: the parent id from whichever JSON format
was used. -/
def DepIssue.parentID (d : DepIssue) : GoStr :=
  if d.dependsOnID ≠ [] then d.dependsOnID else d.id

/-- `IssueWithDepType.DepTypeValue`: the dependency type from whichever JSON
format was used. -/
def DepIssue.depTypeValue (d : DepIssue) : GoStr :=
  if d.depType ≠ [] then d.depType else d.dependencyType

/-- `models.StatsSummary`. -/
structure StatsSummary where
  totalIssues : Int := 0
  openIssues : Int := 0
  inProgressIssues : Int := 0
  closedIssues : Int := 0
  blockedIssues : Int := 0
  deferredIssues : Int := 0
  readyIssues : Int := 0
  tombstoneIssues : Int := 0
  pinnedIssues : Int := 0
deriving DecidableEq, Repr

/-- `models.Issue`.  Timestamps are embedded as `Int` (seconds); optional
timestamps as `Option Int`. -/
structure Issue where
  id : GoStr := []
  title : GoStr := []
  description : GoStr := []
  design : GoStr := []
  acceptanceCriteria : GoStr := []
  notes : GoStr := []
  status : GoStr := []
  priority : Int := 0
  issueType : GoStr := []
  assignee : GoStr := []
  owner : GoStr := []
  createdAt : Int := 0
  createdBy : GoStr := []
  updatedAt : Int := 0
  closedAt : Option Int := none
  closeReason : GoStr := []
  dueAt : Option Int := none
  deferUntil : Option Int := none
  pinned : Bool := false
  dependencyCount : Int := 0
  dependentCount : Int := 0
  commentCount : Int := 0
  labels : List GoStr := []
  dependencies : List DepIssue := []
  dependents : List DepIssue := []
  comments : List Comment := []
  parent : Option GoStr := none
deriving DecidableEq, Repr

/-- `Issue.PriorityString`: `"P0"`, `"P1"`, ... -/
def Issue.priorityString (i : Issue) : GoStr := asciiStr (r"P") ++ intToStr i.priority

/-- `models.RelativeAge` with timestamps in seconds; `math.Round` on a
nonnegative duration is rounding half up. -/
def relativeAge (now t : Int) : GoStr :=
  let d := (now - t).natAbs
  if d < 60 then asciiStr (r"now")
  else if d < 3600 then natToStr ((d + 30) / 60) ++ asciiStr (r"m")
  else if d < 86400 then natToStr ((d + 1800) / 3600) ++ asciiStr (r"h")
  else if d < 2592000 then natToStr ((d + 43200) / 86400) ++ asciiStr (r"d")
  else if d < 31536000 then natToStr ((d + 1296000) / 2592000) ++ asciiStr (r"mo")
  else natToStr ((d + 15768000) / 31536000) ++ asciiStr (r"y")

/-- `views.SortField`. -/
inductive SortField where
  | sortByPriority
  | sortByCreated
  | sortByUpdated
  | sortByStatus
  | sortByType
  | sortByID
deriving DecidableEq, Repr

/-- The `s` key's `(sortField + 1) % 6` cycling. -/
def SortField.next : SortField → SortField
  | .sortByPriority => .sortByCreated
  | .sortByCreated => .sortByUpdated
  | .sortByUpdated => .sortByStatus
  | .sortByStatus => .sortByType
  | .sortByType => .sortByID
  | .sortByID => .sortByPriority

/-- `views.StatusFilter`. -/
inductive StatusFilter where
  | filterAll
  | filterOpen
  | filterInProgress
  | filterBlocked
  | filterClosed
  | filterReady
  | filterDeferred
  | filterPinned
deriving DecidableEq, Repr

/-- `views.statusOrder`: fixed precedence of status strings. -/
def statusOrder (s : GoStr) : Int :=
  if s = asciiStr (r"in_progress") then 0
  else if s = asciiStr (r"open") then 1
  else if s = asciiStr (r"blocked") then 2
  else if s = asciiStr (r"deferred") then 3
  else if s = asciiStr (r"pinned") then 4
  else if s = asciiStr (r"closed") then 5
  else 6

/-- `strings.Compare`: -1/0/1 byte-lexicographically, which for valid UTF-8
coincides with codepoint-lexicographic order. -/
def goCompare : GoStr → GoStr → Int
  | [], [] => 0
  | [], _ :: _ => -1
  | _ :: _, [] => 1
  | a :: as, b :: bs =>
    if a.code < b.code then -1
    else if b.code < a.code then 1
    else goCompare as bs

/-- `strings.ToLower` on the ASCII range (the identifiers, statuses, types
and labels the code compares are ASCII). -/
def goToLower (s : GoStr) : GoStr :=
  s.map (fun c => if 65 ≤ c.code ∧ c.code ≤ 90 then { c with code := c.code + 32 } else c)

/-- Whether `needle` is a prefix of `hay` (on codepoints). -/
def listHasPfx : List Nat → List Nat → Bool
  | _, [] => true
  | [], _ :: _ => false
  | a :: as, b :: bs => a = b && listHasPfx as bs

/-- `strings.Contains` scan: some suffix of `hay` starts with `needle`. -/
def listContainsAux : List Nat → List Nat → Bool
  | [], needle => needle.isEmpty
  | a :: as, needle => listHasPfx (a :: as) needle || listContainsAux as needle

/-- `strings.Contains` on embedded strings (codepoint sequences). -/
def goContains (hay needle : GoStr) : Bool :=
  listContainsAux (hay.map Rune.code) (needle.map Rune.code)

/-- Lookup in a string-keyed association map (embedding of a Go map read). -/
def mapLookup : List (GoStr × Int) → GoStr → Option Int
  | [], _ => none
  | (k, v) :: rest, key => if k = key then some v else mapLookup rest key

/-- Write to a string-keyed association map (embedding of a Go map write:
overwrites the existing entry or appends a new one). -/
def mapInsert : List (GoStr × Int) → GoStr → Int → List (GoStr × Int)
  | [], k, v => [(k, v)]
  | (k', v') :: rest, k, v =>
    if k' = k then (k, v) :: rest else (k', v') :: mapInsert rest k v

/-- `m[k]++` on a Go counter map (missing entries read as 0). -/
def mapBump (m : List (GoStr × Int)) (k : GoStr) : List (GoStr × Int) :=
  mapInsert m k ((mapLookup m k).getD 0 + 1)

/-- Adding a key to a Go set-map (`map[string]bool` written with `true`). -/
def setInsert (s : List GoStr) (k : GoStr) : List GoStr :=
  if k ∈ s then s else s ++ [k]

/-- `views.ListView`: the fields the embedded operations read or write.
The `textinput.Model` is an external widget; only the committed filter text
(`filterText`) and the filtering flag are part of the view's own state. -/
structure ListView where
  allIssues : List Issue := []
  readyIDs : List GoStr := []
  filtered : List Issue := []
  cursor : Int := 0
  offset : Int := 0
  width : Int := 0
  height : Int := 0
  sortField : SortField := SortField.sortByPriority
  sortReverse : Bool := false
  statusFilter : StatusFilter := StatusFilter.filterAll
  hideClosed : Bool := true
  filtering : Bool := false
  filterText : GoStr := []
  stats : Option StatsSummary := none
  prevUpdatedAt : List (GoStr × Int) := []
  flashIDs : List GoStr := []
  closedChildrenCount : List (GoStr × Int) := []
deriving Repr

/-- `views.NewListView`: default sort by priority, filter all, hide closed,
empty maps. -/
def newListView : ListView :=
  { sortField := SortField.sortByPriority
    statusFilter := StatusFilter.filterAll
    hideClosed := true
    readyIDs := []
    prevUpdatedAt := []
    flashIDs := []
    closedChildrenCount := [] }

/-- `ListView.compareIssues`: pinned-first, then the active sort field. -/
def compareIssues (l : ListView) (a b : Issue) : Int :=
  if a.pinned ≠ b.pinned then
    if a.pinned then -1 else 1
  else
    match l.sortField with
    | SortField.sortByPriority =>
      if a.priority ≠ b.priority then a.priority - b.priority
      else if a.createdAt > b.createdAt then -1 else 1
    | SortField.sortByCreated =>
      if a.createdAt > b.createdAt then -1
      else if a.createdAt < b.createdAt then 1 else 0
    | SortField.sortByUpdated =>
      if a.updatedAt > b.updatedAt then -1
      else if a.updatedAt < b.updatedAt then 1 else 0
    | SortField.sortByStatus => statusOrder a.status - statusOrder b.status
    | SortField.sortByType => goCompare a.issueType b.issueType
    | SortField.sortByID => goCompare a.id b.id

/-- The comparison closure passed to `sort.SliceStable` in
`applyFilterAndSort`: `cmp > 0` under the reverse flag, else `cmp < 0`. -/
def lessFn (l : ListView) (a b : Issue) : Bool :=
  if l.sortReverse then decide (compareIssues l a b > 0)
  else decide (compareIssues l a b < 0)

/-- Whether `x` is less than every element of `ys`. -/
def allLess (less : Issue → Issue → Bool) (x : Issue) (ys : List Issue) : Bool :=
  ys.all (less x)

/-- One step of Go's stable insertion: the new element sinks from the right
while strictly less than its left neighbour, so it lands immediately before
`y` exactly when it is less than `y` and than everything after `y`. -/
def goInsert (less : Issue → Issue → Bool) (x : Issue) : List Issue → List Issue
  | [] => [x]
  | y :: ys =>
    if less x y && allLess less x ys then x :: y :: ys else y :: goInsert less x ys

/-- `sort.SliceStable`, embedded as stable insertion sort: Go runs exactly
this algorithm on slices below its block size, and every stable sort agrees
with it whenever the comparator is consistent. -/
def goSort (less : Issue → Issue → Bool) (xs : List Issue) : List Issue :=
  xs.foldl (fun acc x => goInsert less x acc) []

/-- `ListView.matchesStatusFilter`. -/
def matchesStatusFilter (l : ListView) (issue : Issue) : Bool :=
  match l.statusFilter with
  | StatusFilter.filterAll => true
  | StatusFilter.filterOpen => decide (issue.status = asciiStr (r"open"))
  | StatusFilter.filterInProgress => decide (issue.status = asciiStr (r"in_progress"))
  | StatusFilter.filterBlocked => decide (issue.status = asciiStr (r"blocked"))
  | StatusFilter.filterClosed => decide (issue.status = asciiStr (r"closed"))
  | StatusFilter.filterReady => decide (issue.id ∈ l.readyIDs)
  | StatusFilter.filterDeferred => decide (issue.status = asciiStr (r"deferred"))
  | StatusFilter.filterPinned => issue.pinned

/-- `ListView.matchesTextFilter`: case-insensitive substring match against
id, title, type, assignee and every label. -/
def matchesTextFilter (l : ListView) (issue : Issue) : Bool :=
  if l.filterText = [] then true
  else
    let needle := goToLower l.filterText
    goContains (goToLower issue.id) needle ||
    goContains (goToLower issue.title) needle ||
    goContains (goToLower issue.issueType) needle ||
    goContains (goToLower issue.assignee) needle ||
    issue.labels.any (fun lab => goContains (goToLower lab) needle)

/-- The filter predicate of `applyFilterAndSort` (the three `continue`
branches of the Go loop). -/
def issuePasses (l : ListView) (issue : Issue) : Bool :=
  !(l.hideClosed && decide (l.statusFilter ≠ StatusFilter.filterClosed) &&
      decide (issue.status = asciiStr (r"closed"))) &&
    matchesStatusFilter l issue && matchesTextFilter l issue

/-- `ListView.applyFilterAndSort`: filter `allIssues`, stable-sort by the
comparison closure, store into `filtered`. -/
def applyFilterAndSort (l : ListView) : ListView :=
  { l with filtered := goSort (lessFn l) (l.allIssues.filter (issuePasses l)) }

/-- The body of `SetData`'s flash-detection loop: an issue absent from the
previous index or with a different timestamp is added to the flash set and
the has-flashes flag set. -/
def flashStep (prevMap : List (GoStr × Int)) (acc : List GoStr × Bool)
    (issue : Issue) : List GoStr × Bool :=
  match mapLookup prevMap issue.id with
  | none => (setInsert acc.1 issue.id, true)
  | some prev =>
    if issue.updatedAt = prev then acc else (setInsert acc.1 issue.id, true)

/-- `ListView.SetData`: flash detection against the previous timestamp
index, full index replacement, ready-set and closed-children recomputation,
re-filter/sort and cursor clamp.  Returns the updated view and the Go
function's boolean result. -/
def setData (l : ListView) (issues readyIssues : List Issue)
    (stats : Option StatsSummary) : ListView × Bool :=
  let fl :=
    if l.prevUpdatedAt.length > 0 then
      issues.foldl (flashStep l.prevUpdatedAt) (l.flashIDs, false)
    else (l.flashIDs, false)
  let prev' := issues.foldl (fun m issue => mapInsert m issue.id issue.updatedAt) []
  let ready' := readyIssues.foldl (fun s ri => setInsert s ri.id) []
  let ccc := issues.foldl (fun m issue =>
      issue.dependencies.foldl (fun m' dep =>
        if dep.depTypeValue = asciiStr (r"parent-child") ∧
            issue.status = asciiStr (r"closed")
        then mapBump m' dep.parentID else m') m) []
  let l' := applyFilterAndSort { l with
    flashIDs := fl.1
    prevUpdatedAt := prev'
    allIssues := issues
    stats := stats
    readyIDs := ready'
    closedChildrenCount := ccc }
  let l'' := if l'.cursor ≥ (l'.filtered.length : Int)
    then { l' with cursor := max 0 ((l'.filtered.length : Int) - 1) } else l'
  (l'', fl.2)

/-- `ListView.ClearFlashes`. -/
def clearFlashes (l : ListView) : ListView := { l with flashIDs := [] }

/-- `ListView.SetSize`. -/
def ListView.setSize (l : ListView) (w h : Int) : ListView :=
  { l with width := w, height := h }

/-- Go slice indexing `xs[i]`: `none` models the out-of-range panic. -/
def goIndex (xs : List Issue) (i : Int) : Option Issue :=
  if 0 ≤ i ∧ i < (xs.length : Int) then xs.get? i.toNat else none

/-- `ListView.SelectedIssue`: `nil` when the filtered set is empty or the
cursor is at or past its end, else `&l.filtered[l.cursor]`. -/
def selectedIssue (l : ListView) : Option Issue :=
  if l.filtered.length = 0 ∨ (l.filtered.length : Int) ≤ l.cursor then none
  else goIndex l.filtered l.cursor

/-- `ListView.ensureVisible`, with the render-derived visible row count
passed in as `vis`. -/
def ensureVisible (l : ListView) (vis : Int) : ListView :=
  let l1 := if l.cursor < l.offset then { l with offset := l.cursor } else l
  if l1.cursor ≥ l1.offset + vis then { l1 with offset := l1.cursor - vis + 1 } else l1

/-- The `j`/`down` key. -/
def keyDown (l : ListView) (vis : Int) : ListView :=
  if l.cursor < (l.filtered.length : Int) - 1 then
    ensureVisible { l with cursor := l.cursor + 1 } vis
  else l

/-- The `k`/`up` key. -/
def keyUp (l : ListView) (vis : Int) : ListView :=
  if l.cursor > 0 then ensureVisible { l with cursor := l.cursor - 1 } vis else l

/-- The `g`/`home` key. -/
def keyHome (l : ListView) : ListView := { l with cursor := 0, offset := 0 }

/-- The `G`/`end` key. -/
def keyEnd (l : ListView) (vis : Int) : ListView :=
  ensureVisible { l with cursor := max 0 ((l.filtered.length : Int) - 1) } vis

/-- The `ctrl+d` key (`pageSize = visibleRows()/2`). -/
def keyHalfDown (l : ListView) (vis : Int) : ListView :=
  ensureVisible
    { l with cursor := min (l.cursor + vis / 2) (max 0 ((l.filtered.length : Int) - 1)) } vis

/-- The `ctrl+u` key. -/
def keyHalfUp (l : ListView) (vis : Int) : ListView :=
  ensureVisible { l with cursor := max (l.cursor - vis / 2) 0 } vis

/-- The `s` key: cycle the sort field. -/
def keySortCycle (l : ListView) : ListView :=
  applyFilterAndSort { l with sortField := l.sortField.next }

/-- The `S` key: toggle the reverse flag. -/
def keySortReverse (l : ListView) : ListView :=
  applyFilterAndSort { l with sortReverse := !l.sortReverse }

/-- `ListView.toggleStatusFilter` (keys `1`-`7`): toggling the active class
again resets to all. -/
def toggleStatusFilter (l : ListView) (f : StatusFilter) : ListView :=
  applyFilterAndSort
    { l with statusFilter := if l.statusFilter = f then StatusFilter.filterAll else f }

/-- The `0` key: reset the status filter. -/
def keyFilterAll (l : ListView) : ListView :=
  applyFilterAndSort { l with statusFilter := StatusFilter.filterAll }

/-- The `c` key: toggle closed visibility. -/
def keyToggleClosed (l : ListView) : ListView :=
  applyFilterAndSort { l with hideClosed := !l.hideClosed }

/-- The `/` key: enter filtering mode. -/
def keySlash (l : ListView) : ListView := { l with filtering := true }

/-- A keystroke while filtering: the text filter live-updates. -/
def liveFilter (l : ListView) (s : GoStr) : ListView :=
  applyFilterAndSort { l with filterText := s }

/-- Enter while filtering: commit the input value and leave filtering mode. -/
def commitFilter (l : ListView) (s : GoStr) : ListView :=
  applyFilterAndSort { l with filterText := s, filtering := false }

/-- Escape while filtering: revert the input and leave filtering mode. -/
def cancelFilter (l : ListView) : ListView := { l with filtering := false }

/-- The list-view states reachable from `NewListView` by the embedded
operations.  `vis` abstracts `visibleRows()`, which is at least 1 by its
`max(1, …)` floor. -/
inductive LVReach : ListView → Prop where
  | init : LVReach newListView
  | setData (l issues readyIssues stats) :
      LVReach l → LVReach (setData l issues readyIssues stats).1
  | clearFlashes (l) : LVReach l → LVReach (clearFlashes l)
  | setSize (l w h) : LVReach l → LVReach (l.setSize w h)
  | keyDown (l vis) : 1 ≤ vis → LVReach l → LVReach (keyDown l vis)
  | keyUp (l vis) : 1 ≤ vis → LVReach l → LVReach (keyUp l vis)
  | keyHome (l) : LVReach l → LVReach (keyHome l)
  | keyEnd (l vis) : 1 ≤ vis → LVReach l → LVReach (keyEnd l vis)
  | keyHalfDown (l vis) : 1 ≤ vis → LVReach l → LVReach (keyHalfDown l vis)
  | keyHalfUp (l vis) : 1 ≤ vis → LVReach l → LVReach (keyHalfUp l vis)
  | keySortCycle (l) : LVReach l → LVReach (keySortCycle l)
  | keySortReverse (l) : LVReach l → LVReach (keySortReverse l)
  | toggleStatusFilter (l f) : LVReach l → LVReach (toggleStatusFilter l f)
  | keyFilterAll (l) : LVReach l → LVReach (keyFilterAll l)
  | keyToggleClosed (l) : LVReach l → LVReach (keyToggleClosed l)
  | keySlash (l) : LVReach l → LVReach (keySlash l)
  | liveFilter (l s) : LVReach l → LVReach (liveFilter l s)
  | commitFilter (l s) : LVReach l → LVReach (commitFilter l s)
  | cancelFilter (l) : LVReach l → LVReach (cancelFilter l)

theorem applyFilterAndSort_cursor (l : ListView) :
    (applyFilterAndSort l).cursor = l.cursor := rfl

theorem ensureVisible_cursor (l : ListView) (vis : Int) :
    (ensureVisible l vis).cursor = l.cursor := by
  unfold ensureVisible
  dsimp only
  split <;> split <;> rfl

theorem setData_cursor_nonneg (l : ListView) (issues readyIssues : List Issue)
    (stats : Option StatsSummary) (h : 0 ≤ l.cursor) :
    0 ≤ (setData l issues readyIssues stats).1.cursor := by
  unfold setData
  dsimp only
  split <;> split <;> simp [applyFilterAndSort] <;> omega

theorem lv_cursor_nonneg (l : ListView) (h : LVReach l) : 0 ≤ l.cursor := by
  induction h with
  | init => simp [newListView]
  | setData l issues readyIssues stats _ ih =>
    exact setData_cursor_nonneg l issues readyIssues stats ih
  | clearFlashes l _ ih => simpa [clearFlashes] using ih
  | setSize l w h _ ih => simpa [ListView.setSize] using ih
  | keyDown l vis hv _ ih =>
    unfold keyDown
    split
    · rw [ensureVisible_cursor]; dsimp only; omega
    · exact ih
  | keyUp l vis hv _ ih =>
    unfold keyUp
    split
    · rw [ensureVisible_cursor]; dsimp only; omega
    · exact ih
  | keyHome l _ ih => simp [keyHome]
  | keyEnd l vis hv _ ih =>
    unfold keyEnd
    rw [ensureVisible_cursor]
    dsimp only
    omega
  | keyHalfDown l vis hv _ ih =>
    unfold keyHalfDown
    rw [ensureVisible_cursor]
    dsimp only
    have hp : 0 ≤ vis / 2 := by positivity
    omega
  | keyHalfUp l vis hv _ ih =>
    unfold keyHalfUp
    rw [ensureVisible_cursor]
    dsimp only
    omega
  | keySortCycle l _ ih => simpa [keySortCycle, applyFilterAndSort] using ih
  | keySortReverse l _ ih => simpa [keySortReverse, applyFilterAndSort] using ih
  | toggleStatusFilter l f _ ih =>
    simpa [toggleStatusFilter, applyFilterAndSort] using ih
  | keyFilterAll l _ ih => simpa [keyFilterAll, applyFilterAndSort] using ih
  | keyToggleClosed l _ ih => simpa [keyToggleClosed, applyFilterAndSort] using ih
  | keySlash l _ ih => simpa [keySlash] using ih
  | liveFilter l s _ ih => simpa [liveFilter, applyFilterAndSort] using ih
  | commitFilter l s _ ih => simpa [commitFilter, applyFilterAndSort] using ih
  | cancelFilter l _ ih => simpa [cancelFilter] using ih

/-- C10: in every reachable list-view state — including states where a
filter or sort change shrank the filtered set below the cursor without
re-clamping — `SelectedIssue` performs no out-of-bounds access: it returns
`nil` when the filtered set is empty or the cursor is at or past its end,
and otherwise the in-range slice access succeeds and its element is
returned. -/
theorem claim10_selectedIssue (l : ListView) (h : LVReach l) :
    ((l.filtered.length = 0 ∨ (l.filtered.length : Int) ≤ l.cursor) →
      selectedIssue l = none) ∧
    (¬ (l.filtered.length = 0 ∨ (l.filtered.length : Int) ≤ l.cursor) →
      ∃ x, goIndex l.filtered l.cursor = some x ∧ selectedIssue l = some x) := by
  have hc := lv_cursor_nonneg l h
  constructor
  · intro hcond
    unfold selectedIssue
    rw [if_pos hcond]
  · intro hcond
    push_neg at hcond
    obtain ⟨h1, h2⟩ := hcond
    have hidx : l.cursor.toNat < l.filtered.length := by omega
    have hrange : 0 ≤ l.cursor ∧ l.cursor < (l.filtered.length : Int) := ⟨hc, by omega⟩
    have hget : l.filtered.get? l.cursor.toNat
        = some (l.filtered.get ⟨l.cursor.toNat, hidx⟩) := List.get?_eq_get hidx
    refine ⟨l.filtered.get ⟨l.cursor.toNat, hidx⟩, ?_, ?_⟩
    · unfold goIndex
      rw [if_pos hrange, hget]
    · have hne : ¬ (l.filtered.length = 0 ∨ (l.filtered.length : Int) ≤ l.cursor) := by
        push_neg
        exact ⟨h1, by omega⟩
      unfold selectedIssue goIndex
      rw [if_neg hne, if_pos hrange, hget]

/-- C10 witness: the theorem applied at the initial (empty) list view. -/
theorem claim10_witness : selectedIssue newListView = none :=
  (claim10_selectedIssue newListView LVReach.init).1 (Or.inl rfl)

/-- C9: the first `SetData` on a fresh list view (empty previous-timestamp
index) marks nothing as flashing and returns false, whatever the issues. -/
theorem claim9_initial_setData (issues readyIssues : List Issue)
    (stats : Option StatsSummary) :
    (setData newListView issues readyIssues stats).2 = false ∧
    (setData newListView issues readyIssues stats).1.flashIDs = [] := by
  have h0 : ¬ newListView.prevUpdatedAt.length > 0 := by simp [newListView]
  unfold setData
  dsimp only
  rw [if_neg h0]
  constructor
  · rfl
  · split <;> simp [applyFilterAndSort, newListView]

theorem mem_setInsert (s : List GoStr) (k a : GoStr) :
    a ∈ setInsert s k ↔ a ∈ s ∨ a = k := by
  unfold setInsert
  split
  · constructor
    · exact Or.inl
    · rintro (h | rfl)
      · exact h
      · assumption
  · simp

theorem flashFold_mono (pm : List (GoStr × Int)) (issues : List Issue)
    (acc : List GoStr × Bool) (a : GoStr) (h : a ∈ acc.1) :
    a ∈ (issues.foldl (flashStep pm) acc).1 := by
  induction issues generalizing acc with
  | nil => exact h
  | cons j rest ih =>
    apply ih
    unfold flashStep
    split
    · exact (mem_setInsert _ _ _).mpr (Or.inl h)
    · split
      · exact h
      · exact (mem_setInsert _ _ _).mpr (Or.inl h)

theorem flashFold_changed (pm : List (GoStr × Int)) (issues : List Issue)
    (acc : List GoStr × Bool) (i : Issue) (hmem : i ∈ issues)
    (hch : mapLookup pm i.id = none ∨ mapLookup pm i.id ≠ some i.updatedAt) :
    i.id ∈ (issues.foldl (flashStep pm) acc).1 := by
  induction issues generalizing acc with
  | nil => cases hmem
  | cons j rest ih =>
    simp only [List.foldl_cons]
    rcases List.mem_cons.mp hmem with rfl | hrest
    · apply flashFold_mono
      unfold flashStep
      rcases hlk : mapLookup pm i.id with _ | p
      · exact (mem_setInsert _ _ _).mpr (Or.inr rfl)
      · have hne : ¬ i.updatedAt = p := by
          rcases hch with h | h
          · rw [hlk] at h; cases h
          · rw [hlk] at h
            intro he
            exact h (by rw [he])
        dsimp only
        rw [if_neg hne]
        exact (mem_setInsert _ _ _).mpr (Or.inr rfl)
    · exact ih _ hrest

theorem flashFold_unchanged (pm : List (GoStr × Int)) (issues : List Issue)
    (acc : List GoStr × Bool) (i : Issue) (hacc : i.id ∉ acc.1)
    (hsame : ∀ j ∈ issues, j.id = i.id → mapLookup pm j.id = some j.updatedAt) :
    i.id ∉ (issues.foldl (flashStep pm) acc).1 := by
  induction issues generalizing acc with
  | nil => exact hacc
  | cons j rest ih =>
    simp only [List.foldl_cons]
    apply ih
    · unfold flashStep
      rcases hlk : mapLookup pm j.id with _ | p
      · by_cases hid : j.id = i.id
        · have hs := hsame j (List.mem_cons_self _ _) hid
          rw [hlk] at hs
          cases hs
        · intro hin
          rcases (mem_setInsert _ _ _).mp hin with h | h
          · exact hacc h
          · exact hid h.symm
      · dsimp only
        by_cases hup : j.updatedAt = p
        · rw [if_pos hup]
          exact hacc
        · rw [if_neg hup]
          intro hin
          rcases (mem_setInsert _ _ _).mp hin with h | h
          · exact hacc h
          · have hid : j.id = i.id := h.symm
            have hs := hsame j (List.mem_cons_self _ _) hid
            rw [hlk] at hs
            exact hup (by injection hs with h'; exact h'.symm)
    · intro j' hj' hid'
      exact hsame j' (List.mem_cons_of_mem _ hj') hid'

theorem mapLookup_mapInsert (m : List (GoStr × Int)) (k : GoStr) (v : Int)
    (key : GoStr) :
    mapLookup (mapInsert m k v) key = if k = key then some v else mapLookup m key := by
  induction m with
  | nil => rfl
  | cons kv rest ih =>
    obtain ⟨k', v'⟩ := kv
    by_cases h1 : k' = k
    · subst h1
      by_cases h2 : k' = key
      · subst h2
        simp [mapInsert, mapLookup]
      · simp [mapInsert, mapLookup, h2]
    · by_cases h2 : k' = key
      · subst h2
        have hk : ¬ k = k' := fun he => h1 he.symm
        simp [mapInsert, mapLookup, h1, hk]
      · simp [mapInsert, mapLookup, h1, h2, ih]

theorem prevFold_none (issues : List Issue) (m : List (GoStr × Int)) (id : GoStr) :
    mapLookup (issues.foldl (fun m' issue => mapInsert m' issue.id issue.updatedAt) m) id
        = none
      ↔ mapLookup m id = none ∧ id ∉ issues.map Issue.id := by
  induction issues generalizing m with
  | nil => simp
  | cons j rest ih =>
    simp only [List.foldl_cons, List.map_cons, List.mem_cons]
    rw [ih, mapLookup_mapInsert]
    by_cases h : j.id = id
    · simp [h]
    · have : ¬ id = j.id := fun he => h he.symm
      simp [h, this]

theorem prevFold_agree (issues : List Issue) (m : List (GoStr × Int)) (i : Issue)
    (hin : i ∈ issues ∨ mapLookup m i.id = some i.updatedAt)
    (hagree : ∀ j ∈ issues, j.id = i.id → j.updatedAt = i.updatedAt) :
    mapLookup (issues.foldl (fun m' issue => mapInsert m' issue.id issue.updatedAt) m) i.id
      = some i.updatedAt := by
  induction issues generalizing m with
  | nil =>
    rcases hin with h | h
    · cases h
    · exact h
  | cons j rest ih =>
    simp only [List.foldl_cons]
    have hnext : ∀ j' ∈ rest, j'.id = i.id → j'.updatedAt = i.updatedAt :=
      fun j' hj' => hagree j' (List.mem_cons_of_mem _ hj')
    by_cases hid : j.id = i.id
    · have hupd : j.updatedAt = i.updatedAt := hagree j (List.mem_cons_self _ _) hid
      apply ih _ _ hnext
      right
      rw [mapLookup_mapInsert, if_pos hid, hupd]
    · rcases hin with h | h
      · rcases List.mem_cons.mp h with rfl | hrest
        · exact absurd rfl hid
        · exact ih _ (Or.inl hrest) hnext
      · apply ih _ _ hnext
        right
        rw [mapLookup_mapInsert, if_neg hid]
        exact h

theorem setData_flashIDs (l : ListView) (issues readyIssues : List Issue)
    (stats : Option StatsSummary) :
    (setData l issues readyIssues stats).1.flashIDs
      = (if l.prevUpdatedAt.length > 0
         then (issues.foldl (flashStep l.prevUpdatedAt) (l.flashIDs, false)).1
         else l.flashIDs) := by
  unfold setData
  dsimp only
  split <;> split <;> simp [applyFilterAndSort]

theorem setData_prevUpdatedAt (l : ListView) (issues readyIssues : List Issue)
    (stats : Option StatsSummary) :
    (setData l issues readyIssues stats).1.prevUpdatedAt
      = issues.foldl (fun m issue => mapInsert m issue.id issue.updatedAt) [] := by
  unfold setData
  dsimp only
  split <;> split <;> simp [applyFilterAndSort]

/-- C3 (amended): on a `SetData` call with a non-empty previous-timestamp
index, (1) every incoming issue whose timestamp is absent from or differs
from the recorded value ends up in the flash set; (2) an issue whose
timestamp is unchanged is not NEWLY added — it is absent from the flash set
after the call provided it was not already flashing before (the code never
clears `flashIDs` in `SetData`, so an id still flashing from an earlier
reload stays flashing even when unchanged); and (3) the previous-timestamp
index is fully replaced by the new snapshot's timestamps. -/
theorem claim3_setData (l : ListView) (issues readyIssues : List Issue)
    (stats : Option StatsSummary) (hprev : l.prevUpdatedAt ≠ []) :
    (∀ i ∈ issues,
      (mapLookup l.prevUpdatedAt i.id = none ∨
        mapLookup l.prevUpdatedAt i.id ≠ some i.updatedAt) →
      i.id ∈ (setData l issues readyIssues stats).1.flashIDs) ∧
    (∀ i ∈ issues,
      mapLookup l.prevUpdatedAt i.id = some i.updatedAt →
      i.id ∉ l.flashIDs →
      (∀ j ∈ issues, j.id = i.id → j.updatedAt = i.updatedAt) →
      i.id ∉ (setData l issues readyIssues stats).1.flashIDs) ∧
    (∀ i ∈ issues,
      (∀ j ∈ issues, j.id = i.id → j.updatedAt = i.updatedAt) →
      mapLookup (setData l issues readyIssues stats).1.prevUpdatedAt i.id
        = some i.updatedAt) ∧
    (∀ id, mapLookup (setData l issues readyIssues stats).1.prevUpdatedAt id = none
      ↔ id ∉ issues.map Issue.id) := by
  have hlen : l.prevUpdatedAt.length > 0 := by
    cases hm : l.prevUpdatedAt with
    | nil => exact absurd hm hprev
    | cons a b => simp [hm]
  refine ⟨?_, ?_, ?_, ?_⟩
  · intro i hi hch
    rw [setData_flashIDs, if_pos hlen]
    exact flashFold_changed _ _ _ _ hi
      (by rcases hch with h | h
          · exact Or.inl h
          · exact Or.inr h)
  · intro i hi hsame hflash hagree
    rw [setData_flashIDs, if_pos hlen]
    apply flashFold_unchanged _ _ _ _ hflash
    intro j hj hid
    have : j.updatedAt = i.updatedAt := hagree j hj hid
    rw [hid, hsame, this]
  · intro i hi hagree
    rw [setData_prevUpdatedAt]
    exact prevFold_agree issues [] i (Or.inl hi) hagree
  · intro id
    rw [setData_prevUpdatedAt, prevFold_none]
    simp [mapLookup]

theorem goCompare_flip : ∀ s t : GoStr, goCompare t s = - goCompare s t
  | [], [] => rfl
  | [], _ :: _ => rfl
  | _ :: _, [] => rfl
  | a :: as, b :: bs => by
    simp only [goCompare]
    rcases lt_trichotomy a.code b.code with h | h | h
    · rw [if_neg (by omega), if_pos h, if_pos h]
      try decide
    · rw [if_neg (by omega), if_neg (by omega), if_neg (by omega), if_neg (by omega)]
      exact goCompare_flip as bs
    · rw [if_pos h, if_neg (by omega), if_pos h]
      try decide

theorem goCompare_ge_trans : ∀ s t u : GoStr,
    0 ≤ goCompare s t → 0 ≤ goCompare t u → 0 ≤ goCompare s u
  | [], [], u => fun _ h2 => h2
  | [], _ :: _, _ => fun h1 _ => absurd h1 (by simp [goCompare])
  | _ :: _, _, [] => fun _ _ => by
    cases ‹List Rune› <;> simp [goCompare]
  | _ :: _, [], _ :: _ => fun _ h2 => absurd h2 (by simp [goCompare])
  | a :: as, b :: bs, c :: cs => fun h1 h2 => by
    simp only [goCompare] at h1 h2 ⊢
    rcases lt_trichotomy a.code b.code with hab | hab | hab
    · rw [if_pos hab] at h1
      omega
    · rw [if_neg (by omega), if_neg (by omega)] at h1
      rcases lt_trichotomy b.code c.code with hbc | hbc | hbc
      · rw [if_pos hbc] at h2
        omega
      · rw [if_neg (by omega), if_neg (by omega)] at h2
        rw [if_neg (by omega), if_neg (by omega)]
        exact goCompare_ge_trans as bs cs h1 h2
      · rw [if_neg (by omega)]
        split <;> omega
    · rcases lt_trichotomy b.code c.code with hbc | hbc | hbc
      · rw [if_pos hbc] at h2
        omega
      · rw [if_neg (by omega)]
        split <;> omega
      · rw [if_neg (by omega)]
        split <;> omega

/-- The `switch l.sortField` body of `compareIssues` (named so the pinned
tiebreak and the field comparison can be reasoned about separately). -/
def innerCmp (sf : SortField) (a b : Issue) : Int :=
  match sf with
  | SortField.sortByPriority =>
    if a.priority ≠ b.priority then a.priority - b.priority
    else if a.createdAt > b.createdAt then -1 else 1
  | SortField.sortByCreated =>
    if a.createdAt > b.createdAt then -1
    else if a.createdAt < b.createdAt then 1 else 0
  | SortField.sortByUpdated =>
    if a.updatedAt > b.updatedAt then -1
    else if a.updatedAt < b.updatedAt then 1 else 0
  | SortField.sortByStatus => statusOrder a.status - statusOrder b.status
  | SortField.sortByType => goCompare a.issueType b.issueType
  | SortField.sortByID => goCompare a.id b.id

theorem compareIssues_eq (l : ListView) (a b : Issue) :
    compareIssues l a b =
      if a.pinned ≠ b.pinned then (if a.pinned then -1 else 1)
      else innerCmp l.sortField a b := by
  cases hsf : l.sortField <;> simp only [compareIssues, innerCmp, hsf]

theorem innerCmp_asym (sf : SortField) (a b : Issue) :
    innerCmp sf a b < 0 → ¬ innerCmp sf b a < 0 := by
  cases sf with
  | sortByPriority =>
    simp only [innerCmp]
    split_ifs <;> omega
  | sortByCreated =>
    simp only [innerCmp]
    split_ifs <;> omega
  | sortByUpdated =>
    simp only [innerCmp]
    split_ifs <;> omega
  | sortByStatus =>
    simp only [innerCmp]
    omega
  | sortByType =>
    simp only [innerCmp]
    have := goCompare_flip a.issueType b.issueType
    omega
  | sortByID =>
    simp only [innerCmp]
    have := goCompare_flip a.id b.id
    omega

theorem innerCmp_ge_trans (sf : SortField) (a b c : Issue) :
    0 ≤ innerCmp sf b a → 0 ≤ innerCmp sf c b → 0 ≤ innerCmp sf c a := by
  cases sf with
  | sortByPriority =>
    simp only [innerCmp]
    split_ifs <;> omega
  | sortByCreated =>
    simp only [innerCmp]
    split_ifs <;> omega
  | sortByUpdated =>
    simp only [innerCmp]
    split_ifs <;> omega
  | sortByStatus =>
    simp only [innerCmp]
    omega
  | sortByType =>
    simp only [innerCmp]
    exact fun h1 h2 => goCompare_ge_trans c.issueType b.issueType a.issueType h2 h1
  | sortByID =>
    simp only [innerCmp]
    exact fun h1 h2 => goCompare_ge_trans c.id b.id a.id h2 h1

theorem compare_lt_asym (l : ListView) (a b : Issue) :
    compareIssues l a b < 0 → ¬ compareIssues l b a < 0 := by
  rw [compareIssues_eq, compareIssues_eq]
  by_cases hp : a.pinned = b.pinned
  · have hne1 : ¬ a.pinned ≠ b.pinned := by simpa using hp
    have hne2 : ¬ b.pinned ≠ a.pinned := by simpa using hp.symm
    rw [if_neg hne1, if_neg hne2]
    exact innerCmp_asym l.sortField a b
  · have hne1 : a.pinned ≠ b.pinned := hp
    have hne2 : b.pinned ≠ a.pinned := fun h => hp h.symm
    rw [if_pos hne1, if_pos hne2]
    cases hpa : a.pinned <;> cases hpb : b.pinned <;> simp_all

theorem compare_ge_trans (l : ListView) (a b c : Issue) :
    0 ≤ compareIssues l b a → 0 ≤ compareIssues l c b → 0 ≤ compareIssues l c a := by
  rw [compareIssues_eq, compareIssues_eq, compareIssues_eq]
  cases hpa : a.pinned <;> cases hpb : b.pinned <;> cases hpc : c.pinned <;>
    simp_all <;>
    first
      | omega
      | exact innerCmp_ge_trans l.sortField a b c

theorem lessFn_eq_fwd (l : ListView) (hrev : l.sortReverse = false) (a b : Issue) :
    lessFn l a b = decide (compareIssues l a b < 0) := by
  simp [lessFn, hrev]

theorem lessFn_asym (l : ListView) (hrev : l.sortReverse = false) (a b : Issue) :
    lessFn l a b = true → lessFn l b a = false := by
  rw [lessFn_eq_fwd l hrev, lessFn_eq_fwd l hrev]
  simp only [decide_eq_true_eq, decide_eq_false_iff_not]
  exact compare_lt_asym l a b

theorem lessFn_negtrans (l : ListView) (hrev : l.sortReverse = false) (a b c : Issue) :
    lessFn l b a = false → lessFn l c b = false → lessFn l c a = false := by
  rw [lessFn_eq_fwd l hrev, lessFn_eq_fwd l hrev, lessFn_eq_fwd l hrev]
  simp only [decide_eq_false_iff_not]
  intro h1 h2
  have h3 := compare_ge_trans l a b c (by omega) (by omega)
  omega

theorem goInsert_perm (less : Issue → Issue → Bool) (x : Issue) (ys : List Issue) :
    (goInsert less x ys).Perm (x :: ys) := by
  induction ys with
  | nil => exact List.Perm.refl _
  | cons y ys ih =>
    unfold goInsert
    split
    · exact List.Perm.refl _
    · exact (ih.cons y).trans (List.Perm.swap x y ys)

theorem mem_goInsert (less : Issue → Issue → Bool) (x z : Issue) (ys : List Issue) :
    z ∈ goInsert less x ys ↔ z = x ∨ z ∈ ys := by
  rw [(goInsert_perm less x ys).mem_iff]
  simp

theorem goSortFold_perm (less : Issue → Issue → Bool) :
    ∀ (xs acc : List Issue),
      (xs.foldl (fun a x => goInsert less x a) acc).Perm (acc ++ xs) := by
  intro xs
  induction xs with
  | nil => intro acc; simp
  | cons x rest ih =>
    intro acc
    simp only [List.foldl_cons]
    have h1 := ih (goInsert less x acc)
    have h2 : (goInsert less x acc ++ rest).Perm ((x :: acc) ++ rest) :=
      (goInsert_perm less x acc).append_right rest
    have h3 : ((x :: acc) ++ rest).Perm (acc ++ x :: rest) := by
      simpa using List.perm_middle.symm
    exact (h1.trans h2).trans h3

theorem goSort_perm (less : Issue → Issue → Bool) (xs : List Issue) :
    (goSort less xs).Perm xs := by
  simpa using goSortFold_perm less xs []

theorem goInsert_pairwise (less : Issue → Issue → Bool)
    (hasym : ∀ a b, less a b = true → less b a = false)
    (hnt : ∀ a b c, less b a = false → less c b = false → less c a = false)
    (x : Issue) (ys : List Issue)
    (hys : ys.Pairwise (fun a b => less b a = false)) :
    (goInsert less x ys).Pairwise (fun a b => less b a = false) := by
  induction ys with
  | nil => simp [goInsert]
  | cons y ys ih =>
    have hyrel := (List.pairwise_cons.mp hys).1
    have hys' := (List.pairwise_cons.mp hys).2
    unfold goInsert
    by_cases hcond : (less x y && allLess less x ys) = true
    · rw [if_pos hcond]
      obtain ⟨hxy, hall⟩ := (Bool.and_eq_true _ _).mp hcond
      refine List.pairwise_cons.mpr ⟨?_, hys⟩
      intro z hz
      rcases List.mem_cons.mp hz with rfl | hzys
      · exact hasym x z hxy
      · have := List.all_eq_true.mp hall z hzys
        exact hasym x z this
    · rw [if_neg hcond]
      have hxy : less x y = false := by
        cases hv : less x y with
        | false => rfl
        | true =>
          have hnall : ¬ allLess less x ys = true := by
            intro hal
            exact hcond (by rw [hv, hal]; rfl)
          have : ∃ z ∈ ys, ¬ less x z = true := by
            by_contra hno
            push_neg at hno
            exact hnall (List.all_eq_true.mpr hno)
          obtain ⟨z, hzys, hxz⟩ := this
          have hxzf : less x z = false := by
            cases hvv : less x z with
            | false => rfl
            | true => exact absurd hvv hxz
          have hzy : less z y = false := hyrel z hzys
          have := hnt y z x hzy hxzf
          rw [hv] at this
          cases this
      refine List.pairwise_cons.mpr ⟨?_, ih hys'⟩
      intro z hz
      rcases (mem_goInsert less x z ys).mp hz with rfl | hzys
      · exact hxy
      · exact hyrel z hzys

theorem goSort_pairwise (less : Issue → Issue → Bool)
    (hasym : ∀ a b, less a b = true → less b a = false)
    (hnt : ∀ a b c, less b a = false → less c b = false → less c a = false)
    (xs : List Issue) :
    (goSort less xs).Pairwise (fun a b => less b a = false) := by
  have hfold : ∀ (ys acc : List Issue),
      acc.Pairwise (fun a b => less b a = false) →
      (ys.foldl (fun a x => goInsert less x a) acc).Pairwise
        (fun a b => less b a = false) := by
    intro ys
    induction ys with
    | nil => intro acc h; exact h
    | cons y rest ih =>
      intro acc h
      simp only [List.foldl_cons]
      exact ih _ (goInsert_pairwise less hasym hnt y acc h)
  exact hfold xs [] (List.Pairwise.nil)

theorem goInsert_append (less : Issue → Issue → Bool) (x : Issue) (ys : List Issue)
    (h : ∀ y ∈ ys, less x y = false) :
    goInsert less x ys = ys ++ [x] := by
  induction ys with
  | nil => rfl
  | cons y ys ih =>
    unfold goInsert
    have hxy : less x y = false := h y (List.mem_cons_self _ _)
    have hcond : ¬ (less x y && allLess less x ys) = true := by
      rw [hxy]
      simp
    rw [if_neg hcond, ih (fun y' hy' => h y' (List.mem_cons_of_mem _ hy'))]
    rfl

theorem goSort_of_sorted (less : Issue → Issue → Bool) (xs : List Issue)
    (hxs : xs.Pairwise (fun a b => less b a = false)) :
    goSort less xs = xs := by
  have hfold : ∀ (ys acc : List Issue),
      (acc ++ ys).Pairwise (fun a b => less b a = false) →
      ys.foldl (fun a x => goInsert less x a) acc = acc ++ ys := by
    intro ys
    induction ys with
    | nil => intro acc _; simp
    | cons y rest ih =>
      intro acc h
      simp only [List.foldl_cons]
      have hmemrel : ∀ a ∈ acc, less y a = false := by
        intro a ha
        have := (List.pairwise_append.mp h).2.2
        exact this a ha y (List.mem_cons_self _ _)
      rw [goInsert_append less y acc hmemrel]
      have h' : ((acc ++ [y]) ++ rest).Pairwise (fun a b => less b a = false) := by
        simpa using h
      rw [ih (acc ++ [y]) h']
      simp
  simpa using hfold xs [] (by simpa using hxs)

/-- C2 (amended): with the reverse flag OFF, after `applyFilterAndSort` every
pinned issue in the working set is ordered before every unpinned one, for
every sort field.  (With the reverse flag on the code inverts the whole
comparison, pinned tiebreak included, so pinned issues sort below unpinned —
see the counterexample.) -/
theorem claim2_pinned_first (l : ListView) (hrev : l.sortReverse = false) :
    (applyFilterAndSort l).filtered.Pairwise
      (fun a b => b.pinned = true → a.pinned = true) := by
  have hp := goSort_pairwise (lessFn l) (lessFn_asym l hrev) (lessFn_negtrans l hrev)
      (l.allIssues.filter (issuePasses l))
  have himp : ∀ {a b : Issue}, lessFn l b a = false →
      (b.pinned = true → a.pinned = true) := by
    intro a b hba hbpin
    by_contra hap
    have hapf : a.pinned = false := by
      cases hv : a.pinned with
      | false => rfl
      | true => exact absurd hv hap
    have hlt : compareIssues l b a < 0 := by
      rw [compareIssues_eq]
      have hne : b.pinned ≠ a.pinned := by rw [hbpin, hapf]; simp
      rw [if_pos hne, if_pos hbpin]
      decide
    have : lessFn l b a = true := by
      rw [lessFn_eq_fwd l hrev]
      simpa using hlt
    rw [this] at hba
    cases hba
  exact hp.imp himp

/-- A pinned issue for the C2 counterexample. -/
def pinnedIssue : Issue :=
  { id := asciiStr (r"p-1"), title := asciiStr (r"p"),
    status := asciiStr (r"open"), pinned := true }

/-- An unpinned issue for the C2 counterexample. -/
def unpinnedIssue : Issue :=
  { id := asciiStr (r"q-1"), title := asciiStr (r"q"),
    status := asciiStr (r"open"), pinned := false }

/-- A fresh list view holding the two issues with the reverse flag set. -/
def revPinLV : ListView :=
  { newListView with allIssues := [pinnedIssue, unpinnedIssue], sortReverse := true }

/-- C2 counterexample: with the reverse flag set, the pinned issue sorts
BELOW the unpinned one (the reverse flag inverts the pinned-first tiebreak),
so the claim's "for every value of the reverse flag" is false. -/
theorem claim2_ce :
    pinnedIssue.pinned = true ∧ unpinnedIssue.pinned = false ∧
    revPinLV.sortReverse = true ∧
    (applyFilterAndSort revPinLV).filtered = [unpinnedIssue, pinnedIssue] := by
  decide

/-- A fresh list view holding the two issues with the reverse flag off. -/
def fwdPinLV : ListView :=
  { newListView with allIssues := [unpinnedIssue, pinnedIssue] }

/-- C2 witness: the amended theorem applied at a concrete forward-sorted
view. -/
theorem claim2_witness :
    (applyFilterAndSort fwdPinLV).filtered.Pairwise
      (fun a b => b.pinned = true → a.pinned = true) :=
  claim2_pinned_first fwdPinLV rfl

/-- C4 (amended): with the reverse flag OFF, applying the list view's
filter-and-sort to its own output reproduces the output exactly, for every
sort field, including on sets of issues tying on every compared key.  (With
reverse ON, two issues tying on priority and creation time under sort-by-
priority each report "less than" the other, and each application swaps them
— see the counterexample.) -/
theorem claim4_sort_idem (l : ListView) (hrev : l.sortReverse = false) :
    (applyFilterAndSort
        { applyFilterAndSort l with allIssues := (applyFilterAndSort l).filtered }).filtered
      = (applyFilterAndSort l).filtered := by
  have hfe : issuePasses { applyFilterAndSort l with
      allIssues := (applyFilterAndSort l).filtered } = issuePasses l := rfl
  have hle : lessFn { applyFilterAndSort l with
      allIssues := (applyFilterAndSort l).filtered } = lessFn l := rfl
  show goSort _ (List.filter _ _) = _
  rw [hfe, hle]
  have hmem : ∀ a ∈ (applyFilterAndSort l).filtered, issuePasses l a = true := by
    intro a ha
    have : a ∈ l.allIssues.filter (issuePasses l) :=
      ((goSort_perm (lessFn l) (l.allIssues.filter (issuePasses l))).mem_iff).mp ha
    exact List.of_mem_filter this
  have hfilter : ((applyFilterAndSort l).filtered).filter (issuePasses l)
      = (applyFilterAndSort l).filtered := List.filter_eq_self.mpr hmem
  show goSort (lessFn l) (((applyFilterAndSort l).filtered).filter (issuePasses l))
      = (applyFilterAndSort l).filtered
  rw [hfilter]
  exact goSort_of_sorted (lessFn l) _
    (goSort_pairwise (lessFn l) (lessFn_asym l hrev) (lessFn_negtrans l hrev) _)

/-- First of two issues tying on priority and creation time. -/
def tiedA : Issue :=
  { id := asciiStr (r"a-1"), title := asciiStr (r"a"),
    status := asciiStr (r"open"), priority := 1, createdAt := 5 }

/-- Second of two issues tying on priority and creation time. -/
def tiedB : Issue :=
  { id := asciiStr (r"b-1"), title := asciiStr (r"b"),
    status := asciiStr (r"open"), priority := 1, createdAt := 5 }

/-- Priority sort with the reverse flag set over the two tied issues. -/
def revTiedLV : ListView :=
  { newListView with allIssues := [tiedA, tiedB], sortReverse := true }

/-- C4 counterexample: under reverse priority sort, two issues tying on
priority and creation time swap on every application of filter-and-sort
(the tie comparison returns 1 in both directions, which the reverse flag
turns into "less" in both directions), so sorting is not idempotent. -/
theorem claim4_ce :
    (applyFilterAndSort revTiedLV).filtered = [tiedB, tiedA] ∧
    (applyFilterAndSort { applyFilterAndSort revTiedLV with
        allIssues := (applyFilterAndSort revTiedLV).filtered }).filtered
      = [tiedA, tiedB] ∧
    ([tiedA, tiedB] : List Issue) ≠ [tiedB, tiedA] := by
  decide

/-- The two tied issues under forward priority sort. -/
def fwdTiedLV : ListView := { newListView with allIssues := [tiedA, tiedB] }

/-- C4 witness: the amended theorem applied at a concrete forward-sorted
view containing two issues tying on every compared key. -/
theorem claim4_witness :
    (applyFilterAndSort
        { applyFilterAndSort fwdTiedLV with
          allIssues := (applyFilterAndSort fwdTiedLV).filtered }).filtered
      = (applyFilterAndSort fwdTiedLV).filtered :=
  claim4_sort_idem fwdTiedLV rfl

/-- The counterexample issue for C3, at a given update timestamp. -/
def flashIssue (t : Int) : Issue :=
  { id := asciiStr (r"x-1"), title := asciiStr (r"x"),
    status := asciiStr (r"open"), updatedAt := t }

/-- State after the initial load of the C3 scenario. -/
def flashLV1 : ListView := (setData newListView [flashIssue 1] [] none).1

/-- State after the second load (timestamp changed: x-1 starts flashing). -/
def flashLV2 : ListView := (setData flashLV1 [flashIssue 2] [] none).1

/-- State after the third load (timestamp unchanged). -/
def flashLV3 : ListView := (setData flashLV2 [flashIssue 2] [] none).1

/-- C3 counterexample: before the third `SetData` the recorded timestamp
index is non-empty and equals the incoming issue's timestamp (the issue is
unchanged between the two snapshots), yet its identifier is still in the
flash set after the call — `SetData` never clears `flashIDs`, so the claim's
"an issue whose updated-timestamp is unchanged … is not in the flash set
after the call" is false. -/
theorem claim3_ce :
    flashLV2.prevUpdatedAt ≠ [] ∧
    mapLookup flashLV2.prevUpdatedAt (flashIssue 2).id = some (flashIssue 2).updatedAt ∧
    (flashIssue 2).id ∈ flashLV3.flashIDs := by
  decide

/-- C3 witness: the amended theorem applied at the second load of the
concrete scenario — the changed issue's id is flashing afterwards. -/
theorem claim3_witness :
    (flashIssue 2).id ∈ (setData flashLV1 [flashIssue 2] [] none).1.flashIDs :=
  (claim3_setData flashLV1 [flashIssue 2] [] none (by decide)).1 (flashIssue 2)
    (by decide) (by decide)

/-- The watcher's single-slot notification channel
(`events: make(chan struct, 1)` in `newDBWatcher`), embedded as a bounded
queue of pending notifications.  `notify`'s `select { case ch <- …; default: }`
appends when the buffer has room and silently drops otherwise. -/
def notifyCh (q : List Unit) : List Unit :=
  if q.length < 1 then q ++ [()] else q

/-- One transition of the watcher system: either background loop (debounced
fsnotify processing or the poll ticker) fires `notify`, or the consumer's
`waitForChange` receives one pending notification. -/
inductive WStep : List Unit → List Unit → Prop where
  | notify (q) : WStep q (notifyCh q)
  | consume (q) : WStep (() :: q) q

/-- Channel states reachable from the freshly constructed (empty) channel. -/
inductive WReach : List Unit → Prop where
  | init : WReach []
  | step (q q') : WReach q → WStep q q' → WReach q'

theorem wreach_len (q : List Unit) (h : WReach q) : q.length ≤ 1 := by
  induction h with
  | init => simp
  | step q q' _ hstep ih =>
    cases hstep with
    | notify =>
      unfold notifyCh
      split
      · rename_i hlt
        simp only [List.length_append, List.length_cons, List.length_nil]
        omega
      · exact ih
    | consume =>
      simp only [List.length_cons] at ih
      omega

/-- C8: in every reachable state of the watcher's channel at most one
notification is pending; `notify` from a full channel drops the new
notification (the state is unchanged) and from an empty channel stores
exactly one; `notify` never blocks (it is defined — a total step — in every
state); and every transition keeps at most one notification pending, so a
consumer that re-arms after consuming receives at most one notification per
consumption. -/
theorem claim8_watcher_channel (q : List Unit) (h : WReach q) :
    q.length ≤ 1 ∧
    (q.length = 1 → notifyCh q = q) ∧
    (q.length = 0 → notifyCh q = q ++ [()]) ∧
    (∀ q', WStep q q' → q'.length ≤ 1) := by
  refine ⟨wreach_len q h, ?_, ?_, ?_⟩
  · intro h1
    unfold notifyCh
    rw [if_neg (by omega)]
  · intro h0
    unfold notifyCh
    rw [if_pos (by omega)]
  · intro q' hstep
    exact wreach_len q' (WReach.step q q' h hstep)

/-- C8 witness: the theorem applied at the reachable one-pending state;
in particular a further `notify` is dropped there. -/
theorem claim8_witness :
    ([()] : List Unit).length ≤ 1 ∧ notifyCh [()] = [()] :=
  have h : WReach [()] := WReach.step [] [()] WReach.init (WStep.notify [])
  ⟨(claim8_watcher_channel [()] h).1, (claim8_watcher_channel [()] h).2.1 rfl⟩

/-- Whether a data load was triggered explicitly by the user or quietly by
the change watcher. -/
inductive LoadKind where
  | explicitLoad
  | quietLoad
deriving DecidableEq, Repr

/-- Modelled from the spec: the application controller's load-lifecycle
state.  The quiet-load handling is missing from the repository snapshot
under `src/` — the `app.go` there never references the watcher or any quiet
flag, while `watcher.go` and the spec (§4.6, §7c) describe watcher-triggered
quiet loads — so the fields below follow the spec's words. -/
structure AppM where
  loading : Bool := false
  err : Option GoStr := none
  data : Option (List Issue) := none
deriving DecidableEq, Repr

/-- Modelled from the spec: starting a load.  An explicit (user-triggered)
load shows the transitional loading state; a quiet (watcher-triggered) load
never does. -/
def startLoad (a : AppM) : LoadKind → AppM
  | LoadKind.explicitLoad => { a with loading := true }
  | LoadKind.quietLoad => a

/-- Modelled from the spec: handling a load completion.  An explicit load's
error is surfaced in the error state (with retry); a quiet load's error is
silently discarded so the stale-but-valid data stays displayed and no error
state is entered. -/
def onDataLoaded (a : AppM) (kind : LoadKind)
    (result : Except GoStr (List Issue)) : AppM :=
  match kind, result with
  | LoadKind.explicitLoad, Except.error e => { a with loading := false, err := some e }
  | LoadKind.explicitLoad, Except.ok d =>
    { loading := false, err := none, data := some d }
  | LoadKind.quietLoad, Except.error _ => a
  | LoadKind.quietLoad, Except.ok d => { a with err := none, data := some d }

/-- C7: a quiet load never shows the loading state — starting it leaves the
application state untouched and completing it never sets the loading flag —
and a failed quiet load is silently discarded: the state (data included) is
exactly what it was, with no error surfaced. -/
theorem claim7_quiet_load (a : AppM) (e : GoStr)
    (result : Except GoStr (List Issue)) :
    startLoad a LoadKind.quietLoad = a ∧
    (onDataLoaded a LoadKind.quietLoad result).loading = a.loading ∧
    onDataLoaded a LoadKind.quietLoad (Except.error e) = a ∧
    (onDataLoaded a LoadKind.quietLoad (Except.error e)).err = a.err ∧
    (onDataLoaded a LoadKind.quietLoad (Except.error e)).data = a.data := by
  refine ⟨rfl, ?_, rfl, rfl, rfl⟩
  cases result <;> rfl

/-- `views.sectionKind` (the seven collapsible sections; the Go
`sectionCount` sentinel is represented by the list `sectionKinds`). -/
inductive SectionKind where
  | sectionDescription
  | sectionDesign
  | sectionAcceptance
  | sectionNotes
  | sectionDeps
  | sectionDependents
  | sectionComments
deriving DecidableEq, Repr

/-- The section kinds in the order of the Go `for sk := 0; sk < sectionCount`
loop. -/
def sectionKinds : List SectionKind :=
  [SectionKind.sectionDescription, SectionKind.sectionDesign,
   SectionKind.sectionAcceptance, SectionKind.sectionNotes,
   SectionKind.sectionDeps, SectionKind.sectionDependents,
   SectionKind.sectionComments]

/-- `views.sectionLabel`. -/
def sectionLabel : SectionKind → GoStr
  | SectionKind.sectionDescription => asciiStr (r"DESCRIPTION")
  | SectionKind.sectionDesign => asciiStr (r"DESIGN")
  | SectionKind.sectionAcceptance => asciiStr (r"ACCEPTANCE CRITERIA")
  | SectionKind.sectionNotes => asciiStr (r"NOTES")
  | SectionKind.sectionDeps => asciiStr (r"DEPENDENCIES")
  | SectionKind.sectionDependents => asciiStr (r"DEPENDENTS")
  | SectionKind.sectionComments => asciiStr (r"COMMENTS")

/-- `views.navItem`: a rendered line bound to a navigable issue id.  The
line index is only ever assigned from a slice length, hence `Nat`. -/
structure NavItem where
  lineIndex : Nat
  issueID : GoStr
deriving DecidableEq, Repr

/-- The `[sectionCount]bool` collapse-state array. -/
structure Collapsed where
  description : Bool := false
  design : Bool := false
  acceptance : Bool := false
  notes : Bool := false
  deps : Bool := false
  dependents : Bool := false
  comments : Bool := false
deriving DecidableEq, Repr

/-- Array read `d.collapsed[sk]`. -/
def Collapsed.get (c : Collapsed) : SectionKind → Bool
  | SectionKind.sectionDescription => c.description
  | SectionKind.sectionDesign => c.design
  | SectionKind.sectionAcceptance => c.acceptance
  | SectionKind.sectionNotes => c.notes
  | SectionKind.sectionDeps => c.deps
  | SectionKind.sectionDependents => c.dependents
  | SectionKind.sectionComments => c.comments

/-- Array write `d.collapsed[sk] = !d.collapsed[sk]`. -/
def Collapsed.toggle (c : Collapsed) : SectionKind → Collapsed
  | SectionKind.sectionDescription => { c with description := !c.description }
  | SectionKind.sectionDesign => { c with design := !c.design }
  | SectionKind.sectionAcceptance => { c with acceptance := !c.acceptance }
  | SectionKind.sectionNotes => { c with notes := !c.notes }
  | SectionKind.sectionDeps => { c with deps := !c.deps }
  | SectionKind.sectionDependents => { c with dependents := !c.dependents }
  | SectionKind.sectionComments => { c with comments := !c.comments }

/-- ANSI style rendering (lipgloss `Style.Render`): wraps the text in escape
sequences of zero display width; embedded as the identity on the rune
content, which preserves line counts and the substring search for the
all-caps section labels. -/
def styleRender (s : GoStr) : GoStr := s

/-- `ui.PadStr` (and lipgloss `Width(n)` padding): left-align by appending
spaces up to the target display width. -/
def padStr (s : GoStr) (width : Int) : GoStr :=
  if (stringWidth s : Int) ≥ width then s
  else s ++ List.replicate (width - (stringWidth s : Int)).toNat ⟨32, 1⟩

/-- `FieldLabelStyle.Render`: the label column is padded to width 14. -/
def fieldLabelRender (label : GoStr) : GoStr := padStr label 14

/-- Go's `time.Format("2006-01-02 15:04")` is external library behavior;
modelled as the decimal rendering of the timestamp, faithful to what the
embedded code reads from it: nonempty text containing no section label. -/
def timeFmt (t : Int) : GoStr := intToStr t

/-- Modelled from the spec: `Issue.EstimateString` is absent from the
repository snapshot (only its detail-view call site exists) and the spec's
data model lists no estimate attribute, so it is modelled as always empty
and no Estimate line is rendered. -/
def estimateString (_ : Issue) : GoStr := []

/-- Modelled from the spec: `Issue.LeadTime` is absent from the repository
snapshot; per the data model's created/closed timestamps it is the
created-to-closed duration, zero while an issue is still open. -/
def leadTime (i : Issue) : Int :=
  match i.closedAt with
  | some c => c - i.createdAt
  | none => 0

/-- `views.formatDuration` with durations in seconds. -/
def formatDuration (d : Int) : GoStr :=
  let hours := d / 3600
  if hours < 1 then intToStr (d / 60) ++ asciiStr (r"m")
  else if hours < 24 then intToStr hours ++ asciiStr (r"h")
  else
    let days := hours / 24
    let rh := hours % 24
    if rh > 0 then intToStr days ++ asciiStr (r"d ") ++ intToStr rh ++ asciiStr (r"h")
    else intToStr days ++ asciiStr (r"d")

/-- Modelled from the spec: `ui.StatusBadge` is absent from the repository
snapshot (only its call sites exist); it renders an inline status marker and
is modelled as the status text itself. -/
def statusBadge (status : GoStr) : GoStr := status

/-- `IssueWithDepType`'s embedded `PriorityString`. -/
def DepIssue.priorityString (d : DepIssue) : GoStr :=
  asciiStr (r"P") ++ intToStr d.priority

/-- Whitespace runes recognized by `strings.Fields` on the data in play. -/
def isSpaceRune (c : Rune) : Bool :=
  c.code = 32 || c.code = 9 || c.code = 10 || c.code = 13

def fieldsAux : GoStr → GoStr → List GoStr
  | [], cur => if cur = [] then [] else [cur]
  | c :: rest, cur =>
    if isSpaceRune c then
      if cur = [] then fieldsAux rest [] else cur :: fieldsAux rest []
    else fieldsAux rest (cur ++ [c])

/-- `strings.Fields`: whitespace-delimited words, empties dropped. -/
def goFields (s : GoStr) : List GoStr := fieldsAux s []

/-- `strings.Split(text, "\n")`: newline-separated pieces, empties kept. -/
def splitNL : GoStr → List GoStr
  | [] => [[]]
  | c :: rest =>
    if c.code = 10 then [] :: splitNL rest
    else
      match splitNL rest with
      | [] => [[c]]
      | h :: t => (c :: h) :: t

/-- `strings.Join`. -/
def joinStr (sep : GoStr) : List GoStr → GoStr
  | [] => []
  | [x] => x
  | x :: xs => x ++ sep ++ joinStr sep xs

/-- The greedy word-packing step of `views.wrapLine` (the accumulator holds
the emitted lines and the line under construction; Go's incrementally
tracked `currentWidth` always equals the current line's display width). -/
def wrapStep (maxWidth : Int) (acc : List GoStr × GoStr) (word : GoStr) :
    List GoStr × GoStr :=
  if acc.2 = [] then (acc.1, word)
  else if (stringWidth acc.2 : Int) + 1 + (stringWidth word : Int) ≤ maxWidth then
    (acc.1, acc.2 ++ [⟨32, 1⟩] ++ word)
  else (acc.1 ++ [acc.2], word)

/-- `views.wrapLine`. -/
def wrapLine (line : GoStr) (maxWidth : Int) : List GoStr :=
  if (stringWidth line : Int) ≤ maxWidth then [line]
  else
    let acc := (goFields line).foldl (wrapStep maxWidth) ([], [])
    if acc.2 = [] then acc.1 else acc.1 ++ [acc.2]

/-- `views.wrapText`: preserves existing newlines, wraps each paragraph. -/
def wrapText (text : GoStr) (maxWidth : Int) : List GoStr :=
  let mw := if maxWidth ≤ 0 then 80 else maxWidth
  (splitNL text).foldl
    (fun res para => if para = [] then res ++ [[]] else res ++ wrapLine para mw) []

/-- `views.DetailView`: the state read or written by the embedded
operations.  `now` models the wall clock read while building content
(`models.RelativeAge` calls `time.Since`). -/
structure DetailView where
  issue : Option Issue := none
  width : Int := 0
  height : Int := 0
  scroll : Int := 0
  lines : List GoStr := []
  navItems : List NavItem := []
  navCursor : Int := -1
  breadcrumbs : List GoStr := []
  collapsed : Collapsed := {}
  now : Int := 0
deriving Repr

/-- The pair of growing slices built by `buildContent` (`lines` plus the
parallel `navItems`). -/
structure BuildSt where
  lines : List GoStr := []
  navItems : List NavItem := []
deriving Repr

/-- The `add` closure of `buildContent`. -/
def bAdd (st : BuildSt) (s : GoStr) : BuildSt := { st with lines := st.lines ++ [s] }

/-- Appending a run of lines (a wrapped text block). -/
def bAddAll (st : BuildSt) (ls : List GoStr) : BuildSt :=
  { st with lines := st.lines ++ ls }

/-- Appending a navigable line: the nav item records the index the line is
about to occupy (`lineIndex: len(lines)` immediately before `add`). -/
def bAddNav (st : BuildSt) (id line : GoStr) : BuildSt :=
  { lines := st.lines ++ [line],
    navItems := st.navItems ++ [⟨st.lines.length, id⟩] }

/-- The `field` closure of `buildContent`: skip empty values, else render
the padded label and the value on one line. -/
def bField (st : BuildSt) (label value : GoStr) : BuildSt :=
  if value = [] then st
  else bAdd st (fieldLabelRender label ++ styleRender value)

/-- A `field` guarded by an optional timestamp (`if issue.X != nil`). -/
def bFieldTime (st : BuildSt) (label : GoStr) (t : Option Int) (f : Int → GoStr) :
    BuildSt :=
  match t with
  | some v => bField st label (f v)
  | none => st

/-- A `field` guarded by a boolean condition (`if lt := …; lt > 0`). -/
def bFieldIf (st : BuildSt) (cond : Bool) (label value : GoStr) : BuildSt :=
  if cond then bField st label value else st

/-- The parent block: a navigable link line when a parent is set. -/
def bParent (st : BuildSt) (parent : Option GoStr) : BuildSt :=
  match parent with
  | some p =>
    bAddNav st p (fieldLabelRender (asciiStr (r"Parent")) ++ styleRender p ++
      styleRender (asciiStr (r"  (enter to view)")))
  | none => st

/-- The labels line (`if len(labels) > 0`). -/
def bLabels (st : BuildSt) (labels : List GoStr) : BuildSt :=
  if labels ≠ [] then
    bField st (asciiStr (r"Labels")) (joinStr (asciiStr (r", ")) labels)
  else st

/-- `views.collapseIndicator` (the rune content of the styled marker). -/
def collapseIndicator (collapsedB : Bool) : GoStr :=
  if collapsedB then [⟨9654, 1⟩] else [⟨9660, 1⟩]

/-- `DetailView.addSection` together with its call-site guard and leading
blank line: section header, border line, and the wrapped text unless
collapsed. -/
def bSection (st : BuildSt) (collapsedB : Bool) (title text : GoStr)
    (contentWidth : Int) : BuildSt :=
  if text = [] then st
  else
    let st1 := bAdd st []
    let st2 := bAdd st1 (styleRender (collapseIndicator collapsedB ++
      [⟨32, 1⟩] ++ title))
    let st3 := bAdd st2 (padStr [] contentWidth)
    if collapsedB then st3 else bAddAll st3 (wrapText text contentWidth)

/-- The `"  ├─ "` prefix of a non-final dependency line. -/
def treeMid : GoStr := [⟨32, 1⟩, ⟨32, 1⟩, ⟨9500, 1⟩, ⟨9472, 1⟩, ⟨32, 1⟩]

/-- The `"  └─ "` prefix of the final dependency line. -/
def treeLast : GoStr := [⟨32, 1⟩, ⟨32, 1⟩, ⟨9492, 1⟩, ⟨9472, 1⟩, ⟨32, 1⟩]

/-- One rendered dependency/dependent line. -/
def depLine (pfxStr : GoStr) (dep : DepIssue) : GoStr :=
  pfxStr ++ dep.id ++ asciiStr (r"  ") ++ statusBadge dep.status ++
    asciiStr (r"  ") ++ styleRender dep.priorityString ++ asciiStr (r"  ") ++ dep.title

/-- The dependency/dependent loop: every line is navigable. -/
def bDepLoop : BuildSt → List DepIssue → Nat → Nat → BuildSt
  | st, [], _, _ => st
  | st, d :: ds, i, total =>
    let p := if i = total - 1 then treeLast else treeMid
    bDepLoop (bAddNav st d.id (depLine p d)) ds (i + 1) total

/-- The DEPENDENCIES / DEPENDENTS block. -/
def bDepsSection (st : BuildSt) (collapsedB : Bool) (title : GoStr)
    (deps : List DepIssue) (contentWidth : Int) : BuildSt :=
  if deps = [] then st
  else
    let st1 := bAdd st []
    let st2 := bAdd st1 (styleRender (collapseIndicator collapsedB ++ [⟨32, 1⟩] ++
      title ++ asciiStr (r" (") ++ natToStr deps.length ++ asciiStr (r")")))
    let st3 := bAdd st2 (padStr [] contentWidth)
    if collapsedB then st3 else bDepLoop st3 deps 0 deps.length

/-- The comment loop: author line, indented wrapped text, trailing blank. -/
def bCommentLoop (st : BuildSt) (cs : List Comment) (now cw : Int) : BuildSt :=
  cs.foldl (fun st' c =>
    let stA := bAdd st' (asciiStr (r"  ") ++ styleRender c.author ++
      asciiStr (r" (") ++ relativeAge now c.createdAt ++ asciiStr (r" ago):"))
    let stB := bAddAll stA
      ((wrapText c.text (cw - 4)).map (fun line => asciiStr (r"    ") ++ line))
    bAdd stB []) st

/-- The COMMENTS block. -/
def bCommentsSection (st : BuildSt) (collapsedB : Bool) (comments : List Comment)
    (now cw : Int) : BuildSt :=
  if comments = [] then st
  else
    let st1 := bAdd st []
    let st2 := bAdd st1 (styleRender (collapseIndicator collapsedB ++
      asciiStr (r" COMMENTS (") ++ natToStr comments.length ++ asciiStr (r")")))
    let st3 := bAdd st2 (padStr [] cw)
    if collapsedB then st3 else bCommentLoop st3 comments now cw

/-- `DetailView.nonParentDeps`: dependencies minus the parent-child entry
duplicating the explicit parent field. -/
def nonParentDeps (issue : Issue) : List DepIssue :=
  issue.dependencies.filter (fun dep =>
    !(decide (dep.dependencyType = asciiStr (r"parent-child")) &&
      (match issue.parent with
       | some p => decide (dep.id = p)
       | none => false)))

/-- `DetailView.buildContent`: linearize the issue into display lines and
the parallel nav-item index, then clamp the nav cursor. -/
def buildContent (d : DetailView) : DetailView :=
  match d.issue with
  | none => { d with lines := [asciiStr (r"(no issue data)")], navItems := [] }
  | some issue =>
    let contentWidth := max 20 (d.width - 4)
    let st : BuildSt := {}
    let st := bAdd st (styleRender issue.title)
    let st := bAdd st []
    let st := bField st (asciiStr (r"ID")) issue.id
    let st := bField st (asciiStr (r"Priority")) (styleRender issue.priorityString)
    let st := bField st (asciiStr (r"Status")) (styleRender issue.status)
    let st := bField st (asciiStr (r"Type")) (styleRender issue.issueType)
    let st := bField st (asciiStr (r"Assignee")) issue.assignee
    let st := bField st (asciiStr (r"Owner")) issue.owner
    let st := bField st (asciiStr (r"Created By")) issue.createdBy
    let st := bField st (asciiStr (r"Created")) (timeFmt issue.createdAt ++
      asciiStr (r"  (") ++ relativeAge d.now issue.createdAt ++ asciiStr (r" ago)"))
    let st := bField st (asciiStr (r"Updated")) (timeFmt issue.updatedAt ++
      asciiStr (r"  (") ++ relativeAge d.now issue.updatedAt ++ asciiStr (r" ago)"))
    let st := bFieldTime st (asciiStr (r"Closed")) issue.closedAt (fun c =>
      timeFmt c ++ asciiStr (r"  (") ++ relativeAge d.now c ++ asciiStr (r" ago)"))
    let st := bField st (asciiStr (r"Close Reason")) issue.closeReason
    let st := bFieldTime st (asciiStr (r"Due")) issue.dueAt timeFmt
    let st := bFieldTime st (asciiStr (r"Defer Until")) issue.deferUntil timeFmt
    let st := bField st (asciiStr (r"Estimate")) (estimateString issue)
    let st := bFieldIf st (decide (leadTime issue > 0)) (asciiStr (r"Lead Time"))
      (formatDuration (leadTime issue))
    let st := bParent st issue.parent
    let st := bLabels st issue.labels
    let st := bSection st (d.collapsed.get SectionKind.sectionDescription)
      (asciiStr (r"DESCRIPTION")) issue.description contentWidth
    let st := bSection st (d.collapsed.get SectionKind.sectionDesign)
      (asciiStr (r"DESIGN")) issue.design contentWidth
    let st := bSection st (d.collapsed.get SectionKind.sectionAcceptance)
      (asciiStr (r"ACCEPTANCE CRITERIA")) issue.acceptanceCriteria contentWidth
    let st := bSection st (d.collapsed.get SectionKind.sectionNotes)
      (asciiStr (r"NOTES")) issue.notes contentWidth
    let st := bDepsSection st (d.collapsed.get SectionKind.sectionDeps)
      (asciiStr (r"DEPENDENCIES")) (nonParentDeps issue) contentWidth
    let st := bDepsSection st (d.collapsed.get SectionKind.sectionDependents)
      (asciiStr (r"DEPENDENTS")) issue.dependents contentWidth
    let st := bCommentsSection st (d.collapsed.get SectionKind.sectionComments)
      issue.comments d.now contentWidth
    let nc := if d.navCursor ≥ (st.navItems.length : Int)
      then max (-1) ((st.navItems.length : Int) - 1) else d.navCursor
    { d with lines := st.lines, navItems := st.navItems, navCursor := nc }

/-- `views.NewDetailView`. -/
def newDetailView (issue : Issue) (now : Int) : DetailView :=
  buildContent { issue := some issue, navCursor := -1, now := now }

/-- `DetailView.SetSize`: store the dimensions, rebuild the content.  Note:
no scroll re-clamp. -/
def DetailView.dSetSize (d : DetailView) (w h : Int) : DetailView :=
  buildContent { d with width := w, height := h }

/-- Modelled from the spec: `ui.ContentHeight` is absent from the repository
snapshot (only this call site exists).  Per the spec the visible line count
subtracts the rendered header and status-bar heights from the terminal
height; the floor of one content line mirrors the list view's analogous
overhead computation in the source. -/
def contentHeight (height headerLines statusLines : Int) : Int :=
  max 1 (height - headerLines - statusLines)

/-- `DetailView.visibleLines`, with the header and status bar chrome
rendering as one line each. -/
def visibleLines (d : DetailView) : Int := contentHeight d.height 1 1

/-- `DetailView.UpdateIssue`: replace the issue, rebuild, clamp scroll. -/
def updateIssue (d : DetailView) (issue : Issue) : DetailView :=
  let d1 := buildContent { d with issue := some issue }
  let maxScroll := max 0 ((d1.lines.length : Int) - visibleLines d1)
  if d1.scroll > maxScroll then { d1 with scroll := maxScroll } else d1

/-- The `j`/`down` key of `DetailView.Update`. -/
def dKeyJ (d : DetailView) : DetailView :=
  if d.scroll < (d.lines.length : Int) - visibleLines d then
    { d with scroll := d.scroll + 1 }
  else d

/-- The `k`/`up` key. -/
def dKeyK (d : DetailView) : DetailView :=
  if d.scroll > 0 then { d with scroll := d.scroll - 1 } else d

/-- The `g`/`home` key. -/
def dKeyHome (d : DetailView) : DetailView := { d with scroll := 0 }

/-- The `G`/`end` key. -/
def dKeyEnd (d : DetailView) : DetailView :=
  { d with scroll := max 0 ((d.lines.length : Int) - visibleLines d) }

/-- The `ctrl+d` key. -/
def dKeyHalfDown (d : DetailView) : DetailView :=
  let page := visibleLines d / 2
  let bound := max 0 ((d.lines.length : Int) - visibleLines d)
  { d with scroll := min (d.scroll + page) bound }

/-- The `ctrl+u` key. -/
def dKeyHalfUp (d : DetailView) : DetailView :=
  let page := visibleLines d / 2
  { d with scroll := max (d.scroll - page) 0 }

/-- `DetailView.scrollToNav`. -/
def scrollToNav (d : DetailView) : DetailView :=
  if d.navCursor < 0 ∨ (d.navItems.length : Int) ≤ d.navCursor then d
  else
    let line := ((d.navItems.getD d.navCursor.toNat ⟨0, []⟩).lineIndex : Int)
    let vis := visibleLines d
    if line < d.scroll then { d with scroll := line }
    else if line ≥ d.scroll + vis then { d with scroll := line - vis + 1 }
    else d

/-- The `tab` key: advance the nav cursor with wraparound, scroll to it. -/
def dKeyTab (d : DetailView) : DetailView :=
  if d.navItems.length > 0 then
    let nc := d.navCursor + 1
    let nc := if nc ≥ (d.navItems.length : Int) then 0 else nc
    scrollToNav { d with navCursor := nc }
  else d

/-- The `shift+tab` key. -/
def dKeyShiftTab (d : DetailView) : DetailView :=
  if d.navItems.length > 0 then
    let nc := d.navCursor - 1
    let nc := if nc < 0 then (d.navItems.length : Int) - 1 else nc
    scrollToNav { d with navCursor := nc }
  else d

/-- The inner label scan of `toggleSectionAtScroll` (the Go loop breaks at
the first matching kind). -/
def findSectionLabel (line : GoStr) : Option SectionKind :=
  sectionKinds.find? (fun sk =>
    !(decide (sectionLabel sk = [])) && goContains line (sectionLabel sk))

/-- The `x` key: toggle the collapse state of the last section whose header
line is at or above the target line, then rebuild.  Note: no scroll
re-clamp after the rebuild. -/
def toggleSectionAtScroll (d : DetailView) : DetailView :=
  match d.issue with
  | none => d
  | some _ =>
    let targetLine : Int :=
      if 0 ≤ d.navCursor ∧ d.navCursor < (d.navItems.length : Int) then
        ((d.navItems.getD d.navCursor.toNat ⟨0, []⟩).lineIndex : Int)
      else d.scroll
    let sections := d.lines.enum.filterMap
      (fun p => (findSectionLabel p.2).map (fun sk => (sk, p.1)))
    match (sections.filter (fun s => (s.2 : Int) ≤ targetLine)).getLast? with
    | some s => buildContent { d with collapsed := d.collapsed.toggle s.1 }
    | none => d

/-- Builder well-formedness: every nav item points at an existing line. -/
def BWf (st : BuildSt) : Prop :=
  ∀ it ∈ st.navItems, it.lineIndex < st.lines.length

theorem bWf_empty : BWf {} := by
  intro it hit
  simp [BuildSt.navItems] at hit

theorem bAdd_wf (st : BuildSt) (s : GoStr) (h : BWf st) : BWf (bAdd st s) := by
  intro it hit
  simp only [bAdd] at hit ⊢
  have := h it hit
  simp only [List.length_append, List.length_singleton]
  omega

theorem bAddAll_wf (st : BuildSt) (ls : List GoStr) (h : BWf st) :
    BWf (bAddAll st ls) := by
  intro it hit
  simp only [bAddAll] at hit ⊢
  have := h it hit
  simp only [List.length_append]
  omega

theorem bAddNav_wf (st : BuildSt) (id line : GoStr) (h : BWf st) :
    BWf (bAddNav st id line) := by
  intro it hit
  simp only [bAddNav, List.mem_append, List.mem_singleton] at hit ⊢
  simp only [List.length_append, List.length_singleton]
  rcases hit with hit | rfl
  · have := h it hit
    omega
  · simp

theorem bField_wf (st : BuildSt) (label value : GoStr) (h : BWf st) :
    BWf (bField st label value) := by
  unfold bField
  split
  · exact h
  · exact bAdd_wf _ _ h

theorem bFieldTime_wf (st : BuildSt) (label : GoStr) (t : Option Int)
    (f : Int → GoStr) (h : BWf st) : BWf (bFieldTime st label t f) := by
  unfold bFieldTime
  cases t with
  | some v => exact bField_wf _ _ _ h
  | none => exact h

theorem bFieldIf_wf (st : BuildSt) (cond : Bool) (label value : GoStr)
    (h : BWf st) : BWf (bFieldIf st cond label value) := by
  unfold bFieldIf
  split
  · exact bField_wf _ _ _ h
  · exact h

theorem bParent_wf (st : BuildSt) (parent : Option GoStr) (h : BWf st) :
    BWf (bParent st parent) := by
  unfold bParent
  cases parent with
  | some p => exact bAddNav_wf _ _ _ h
  | none => exact h

theorem bLabels_wf (st : BuildSt) (labels : List GoStr) (h : BWf st) :
    BWf (bLabels st labels) := by
  unfold bLabels
  split
  · exact bField_wf _ _ _ h
  · exact h

theorem bSection_wf (st : BuildSt) (collapsedB : Bool) (title text : GoStr)
    (contentWidth : Int) (h : BWf st) :
    BWf (bSection st collapsedB title text contentWidth) := by
  unfold bSection
  split
  · exact h
  · dsimp only
    split
    · exact bAdd_wf _ _ (bAdd_wf _ _ (bAdd_wf _ _ h))
    · exact bAddAll_wf _ _ (bAdd_wf _ _ (bAdd_wf _ _ (bAdd_wf _ _ h)))

theorem bDepLoop_wf (deps : List DepIssue) (st : BuildSt) (i total : Nat)
    (h : BWf st) : BWf (bDepLoop st deps i total) := by
  induction deps generalizing st i with
  | nil => exact h
  | cons d ds ih =>
    unfold bDepLoop
    exact ih _ _ (bAddNav_wf _ _ _ h)

theorem bDepsSection_wf (st : BuildSt) (collapsedB : Bool) (title : GoStr)
    (deps : List DepIssue) (contentWidth : Int) (h : BWf st) :
    BWf (bDepsSection st collapsedB title deps contentWidth) := by
  unfold bDepsSection
  split
  · exact h
  · dsimp only
    split
    · exact bAdd_wf _ _ (bAdd_wf _ _ (bAdd_wf _ _ h))
    · exact bDepLoop_wf _ _ _ _ (bAdd_wf _ _ (bAdd_wf _ _ (bAdd_wf _ _ h)))

theorem bCommentLoop_wf (cs : List Comment) (now cw : Int) (st : BuildSt)
    (h : BWf st) : BWf (bCommentLoop st cs now cw) := by
  induction cs generalizing st with
  | nil => exact h
  | cons c rest ih =>
    unfold bCommentLoop at ih ⊢
    simp only [List.foldl_cons]
    exact ih _ (bAdd_wf _ _ (bAddAll_wf _ _ (bAdd_wf _ _ h)))

theorem bCommentsSection_wf (st : BuildSt) (collapsedB : Bool)
    (comments : List Comment) (now cw : Int) (h : BWf st) :
    BWf (bCommentsSection st collapsedB comments now cw) := by
  unfold bCommentsSection
  split
  · exact h
  · dsimp only
    split
    · exact bAdd_wf _ _ (bAdd_wf _ _ (bAdd_wf _ _ h))
    · exact bCommentLoop_wf _ _ _ _ (bAdd_wf _ _ (bAdd_wf _ _ (bAdd_wf _ _ h)))

theorem buildContent_wf (d : DetailView) :
    ∀ it ∈ (buildContent d).navItems, it.lineIndex < (buildContent d).lines.length := by
  unfold buildContent
  match hd : d.issue with
  | none =>
    intro it hit
    simp at hit
  | some issue =>
    dsimp only
    show BWf _
    repeat
      first
        | exact bWf_empty
        | apply bCommentsSection_wf
        | apply bDepsSection_wf
        | apply bSection_wf
        | apply bLabels_wf
        | apply bParent_wf
        | apply bFieldIf_wf
        | apply bFieldTime_wf
        | apply bField_wf
        | apply bAdd_wf

theorem buildContent_scroll (d : DetailView) :
    (buildContent d).scroll = d.scroll := by
  unfold buildContent
  match hd : d.issue with
  | none => rfl
  | some issue => rfl

theorem buildContent_height (d : DetailView) :
    (buildContent d).height = d.height := by
  unfold buildContent
  match hd : d.issue with
  | none => rfl
  | some issue => rfl

/-- The detail-view invariant of C6: scroll within bounds, nav items within
the line list. -/
def DWf (d : DetailView) : Prop :=
  0 ≤ d.scroll ∧ d.scroll ≤ max 0 ((d.lines.length : Int) - visibleLines d) ∧
  ∀ it ∈ d.navItems, it.lineIndex < d.lines.length

theorem visibleLines_pos (d : DetailView) : 1 ≤ visibleLines d := by
  unfold visibleLines contentHeight
  exact le_max_left 1 _

theorem scrollSet_wf (d : DetailView) (x : Int)
    (hnav : ∀ it ∈ d.navItems, it.lineIndex < d.lines.length)
    (h0 : 0 ≤ x) (h1 : x ≤ max 0 ((d.lines.length : Int) - visibleLines d)) :
    DWf { d with scroll := x } := by
  refine ⟨h0, ?_, ?_⟩
  · show x ≤ max 0 ((d.lines.length : Int) - visibleLines { d with scroll := x })
    have hv : visibleLines { d with scroll := x } = visibleLines d := rfl
    rw [hv]
    exact h1
  · show ∀ it ∈ d.navItems, it.lineIndex < d.lines.length
    exact hnav

theorem navSet_wf (d : DetailView) (nc : Int) (h : DWf d) :
    DWf { d with navCursor := nc } := by
  obtain ⟨h0, h1, h2⟩ := h
  refine ⟨h0, ?_, ?_⟩
  · show d.scroll ≤ max 0 ((d.lines.length : Int) - visibleLines { d with navCursor := nc })
    have hv : visibleLines { d with navCursor := nc } = visibleLines d := rfl
    rw [hv]
    exact h1
  · show ∀ it ∈ d.navItems, it.lineIndex < d.lines.length
    exact h2

theorem dKeyJ_wf (d : DetailView) (h : DWf d) : DWf (dKeyJ d) := by
  obtain ⟨h0, h1, h2⟩ := h
  unfold dKeyJ
  by_cases hlt : d.scroll < (d.lines.length : Int) - visibleLines d
  · rw [if_pos hlt]
    exact scrollSet_wf d _ h2 (by omega) (by omega)
  · rw [if_neg hlt]
    exact ⟨h0, h1, h2⟩

theorem dKeyK_wf (d : DetailView) (h : DWf d) : DWf (dKeyK d) := by
  obtain ⟨h0, h1, h2⟩ := h
  unfold dKeyK
  by_cases hgt : d.scroll > 0
  · rw [if_pos hgt]
    exact scrollSet_wf d _ h2 (by omega) (by omega)
  · rw [if_neg hgt]
    exact ⟨h0, h1, h2⟩

theorem dKeyHome_wf (d : DetailView) (h : DWf d) : DWf (dKeyHome d) := by
  obtain ⟨h0, h1, h2⟩ := h
  exact scrollSet_wf d 0 h2 le_rfl (by omega)

theorem dKeyEnd_wf (d : DetailView) (h : DWf d) : DWf (dKeyEnd d) := by
  obtain ⟨h0, h1, h2⟩ := h
  exact scrollSet_wf d _ h2 (by omega) le_rfl

theorem dKeyHalfDown_wf (d : DetailView) (h : DWf d) : DWf (dKeyHalfDown d) := by
  obtain ⟨h0, h1, h2⟩ := h
  have hv := visibleLines_pos d
  have hp : 0 ≤ visibleLines d / 2 := Int.ediv_nonneg (by omega) (by norm_num)
  unfold dKeyHalfDown
  dsimp only
  exact scrollSet_wf d _ h2 (by omega) (by omega)

theorem dKeyHalfUp_wf (d : DetailView) (h : DWf d) : DWf (dKeyHalfUp d) := by
  obtain ⟨h0, h1, h2⟩ := h
  have hv := visibleLines_pos d
  have hp : 0 ≤ visibleLines d / 2 := Int.ediv_nonneg (by omega) (by norm_num)
  unfold dKeyHalfUp
  dsimp only
  exact scrollSet_wf d _ h2 (by omega) (by omega)

theorem scrollToNav_wf (d : DetailView) (h : DWf d) : DWf (scrollToNav d) := by
  obtain ⟨h0, h1, h2⟩ := h
  unfold scrollToNav
  by_cases hguard : d.navCursor < 0 ∨ (d.navItems.length : Int) ≤ d.navCursor
  · rw [if_pos hguard]
    exact ⟨h0, h1, h2⟩
  · rw [if_neg hguard]
    push_neg at hguard
    obtain ⟨hg0, hg1⟩ := hguard
    dsimp only
    have hn : d.navCursor.toNat < d.navItems.length := by omega
    have hgd : d.navItems.getD d.navCursor.toNat ⟨0, []⟩
        = d.navItems.get ⟨d.navCursor.toNat, hn⟩ := by
      rw [List.getD_eq_get?, List.get?_eq_get hn]
      rfl
    have hmem : d.navItems.getD d.navCursor.toNat ⟨0, []⟩ ∈ d.navItems := by
      rw [hgd]
      exact List.get_mem _ _ _
    have hline := h2 _ hmem
    have hv := visibleLines_pos d
    by_cases hlt : ((d.navItems.getD d.navCursor.toNat ⟨0, []⟩).lineIndex : Int) < d.scroll
    · rw [if_pos hlt]
      exact scrollSet_wf d _ h2 (by positivity) (by omega)
    · rw [if_neg hlt]
      by_cases hge : ((d.navItems.getD d.navCursor.toNat ⟨0, []⟩).lineIndex : Int)
          ≥ d.scroll + visibleLines d
      · rw [if_pos hge]
        exact scrollSet_wf d _ h2 (by omega) (by omega)
      · rw [if_neg hge]
        exact ⟨h0, h1, h2⟩

theorem dKeyTab_wf (d : DetailView) (h : DWf d) : DWf (dKeyTab d) := by
  unfold dKeyTab
  split
  · dsimp only
    split <;> exact scrollToNav_wf _ (navSet_wf d _ h)
  · exact h

theorem dKeyShiftTab_wf (d : DetailView) (h : DWf d) : DWf (dKeyShiftTab d) := by
  unfold dKeyShiftTab
  split
  · dsimp only
    split <;> exact scrollToNav_wf _ (navSet_wf d _ h)
  · exact h

theorem updateIssue_wf (d : DetailView) (issue : Issue) (h0 : 0 ≤ d.scroll) :
    DWf (updateIssue d issue) := by
  unfold updateIssue
  dsimp only
  have hs : (buildContent { d with issue := some issue }).scroll = d.scroll := by
    rw [buildContent_scroll]
  have hwf := buildContent_wf { d with issue := some issue }
  by_cases hgt : (buildContent { d with issue := some issue }).scroll
      > max 0 (((buildContent { d with issue := some issue }).lines.length : Int)
          - visibleLines (buildContent { d with issue := some issue }))
  · rw [if_pos hgt]
    exact scrollSet_wf _ _ hwf (by omega) le_rfl
  · rw [if_neg hgt]
    exact ⟨by omega, by omega, hwf⟩

/-- The detail-view states reachable from a freshly built and sized view by
scroll and cross-reference key handling and quiet `UpdateIssue` refreshes
(the section-toggle key and further `SetSize` calls are exactly the
operations the counterexample shows break the bound). -/
inductive DReach (issue : Issue) (now w h : Int) : DetailView → Prop where
  | init : DReach issue now w h ((newDetailView issue now).dSetSize w h)
  | keyJ (d) : DReach issue now w h d → DReach issue now w h (dKeyJ d)
  | keyK (d) : DReach issue now w h d → DReach issue now w h (dKeyK d)
  | keyHome (d) : DReach issue now w h d → DReach issue now w h (dKeyHome d)
  | keyEnd (d) : DReach issue now w h d → DReach issue now w h (dKeyEnd d)
  | keyHalfDown (d) : DReach issue now w h d → DReach issue now w h (dKeyHalfDown d)
  | keyHalfUp (d) : DReach issue now w h d → DReach issue now w h (dKeyHalfUp d)
  | keyTab (d) : DReach issue now w h d → DReach issue now w h (dKeyTab d)
  | keyShiftTab (d) : DReach issue now w h d → DReach issue now w h (dKeyShiftTab d)
  | refresh (d) (i : Issue) : DReach issue now w h d →
      DReach issue now w h (updateIssue d i)

theorem dreach_wf (issue : Issue) (now w h : Int) (d : DetailView)
    (hd : DReach issue now w h d) : DWf d := by
  induction hd with
  | init =>
    have hs : ((newDetailView issue now).dSetSize w h).scroll = 0 := by
      unfold DetailView.dSetSize
      rw [buildContent_scroll]
      show (newDetailView issue now).scroll = 0
      unfold newDetailView
      rw [buildContent_scroll]
    refine ⟨?_, ?_, ?_⟩
    · rw [hs]
    · rw [hs]
      exact le_max_left 0 _
    · unfold DetailView.dSetSize
      exact buildContent_wf _
  | keyJ d _ ih => exact dKeyJ_wf d ih
  | keyK d _ ih => exact dKeyK_wf d ih
  | keyHome d _ ih => exact dKeyHome_wf d ih
  | keyEnd d _ ih => exact dKeyEnd_wf d ih
  | keyHalfDown d _ ih => exact dKeyHalfDown_wf d ih
  | keyHalfUp d _ ih => exact dKeyHalfUp_wf d ih
  | keyTab d _ ih => exact dKeyTab_wf d ih
  | keyShiftTab d _ ih => exact dKeyShiftTab_wf d ih
  | refresh d i _ ih => exact updateIssue_wf d i ih.1

/-- C6 (amended): in every detail-view state reachable from a freshly built
and sized view by the scroll and cross-reference keys (`j`/`k`/`g`/`G`/
`ctrl+u`/`ctrl+d`/`tab`/`shift+tab`) and by `UpdateIssue` refreshes, the
vertical scroll offset lies within `[0, max 0 (totalLines − visibleLines)]`.
The section-toggle rebuild and later `SetSize` calls perform no scroll
re-clamp and can leave the offset above the upper bound (the renderer clamps
its start line defensively instead) — see the counterexample. -/
theorem claim6_scroll_bound (issue : Issue) (now w h : Int) (d : DetailView)
    (hd : DReach issue now w h d) :
    0 ≤ d.scroll ∧
      d.scroll ≤ max 0 ((d.lines.length : Int) - visibleLines d) := by
  have := dreach_wf issue now w h d hd
  exact ⟨this.1, this.2.1⟩

/-- The issue of the C6 counterexample: a ten-line description makes the
DESCRIPTION section tall enough that collapsing it while scrolled to the
bottom strands the scroll offset above the rebuilt content's bound. -/
def ceDetailIssue : Issue :=
  { id := asciiStr (r"i1"), title := asciiStr (r"t"),
    description := joinStr [⟨10, 0⟩] (List.replicate 10 (asciiStr (r"a"))) }

/-- C6 counterexample: size the freshly built view to 24x6, press `G` to
scroll to the bottom, then press `x`.  The section-at-scroll is DESCRIPTION;
collapsing it rebuilds the content much shorter, and since
`toggleSectionAtScroll` performs no scroll re-clamp the offset now exceeds
`max 0 (totalLines - visibleLines)`, refuting the claim's unconditional
bound. -/
theorem claim6_ce :
    ¬ ((toggleSectionAtScroll
          (dKeyEnd ((newDetailView ceDetailIssue 1000).dSetSize 24 6))).scroll
        ≤ max 0
          (((toggleSectionAtScroll
              (dKeyEnd ((newDetailView ceDetailIssue 1000).dSetSize 24 6))).lines.length : Int)
            - visibleLines (toggleSectionAtScroll
                (dKeyEnd ((newDetailView ceDetailIssue 1000).dSetSize 24 6))))) := by
  decide

/-- Witness for C6: the amended bound instantiated on a concrete reachable
state (the counterexample's view after sizing and pressing `G` — the last
state before the unclamped `x` toggle). -/
theorem claim6_witness :
    0 ≤ (dKeyEnd ((newDetailView ceDetailIssue 1000).dSetSize 24 6)).scroll ∧
    (dKeyEnd ((newDetailView ceDetailIssue 1000).dSetSize 24 6)).scroll ≤
      max 0
        (((dKeyEnd ((newDetailView ceDetailIssue 1000).dSetSize 24 6)).lines.length : Int)
          - visibleLines (dKeyEnd ((newDetailView ceDetailIssue 1000).dSetSize 24 6))) :=
  claim6_scroll_bound ceDetailIssue 1000 24 6 _
    (DReach.keyEnd _ (DReach.init))
